import Mathlib

/-!
# Blog REST API: repository layer and request handlers

A shallow embedding of `repository/repository.go` and `service/rest.go`.

* Go slices are values of `Slice`, which keeps the nil slice apart from a
  non-nil slice of length zero (the two encode differently as JSON).
* `uint64` ids are natural numbers; no arithmetic is done on them.
* A method with a pointer receiver that mutates its repository returns the
  new repository next to its Go result.
* A Go `(value, error)` pair is a pair of options, `none` standing for `nil`.
-/

set_option linter.dupNamespace false

namespace Blog

/-! ## Go values -/

/-- A Go slice value: `nil` is the nil slice, `mk l` a non-nil slice whose elements are `l`. -/
inductive Slice (α : Type) where
  | nil
  | mk (elems : List α)
  deriving DecidableEq, Repr

/-- The elements of a slice in index order; what `for ... range` iterates over. -/
def Slice.toList {α : Type} : Slice α → List α
  | .nil => []
  | .mk l => l

/-- Go's `append(s, x)`: the result is never nil. -/
def Slice.append {α : Type} (s : Slice α) (x : α) : Slice α :=
  .mk (s.toList ++ [x])

/-- Go's `make([]T, 0)`: a non-nil slice of length zero. -/
def Slice.make0 {α : Type} : Slice α := .mk []

/-- Go's `len(s)`. -/
def Slice.len {α : Type} (s : Slice α) : Nat := s.toList.length

/-- A `time.Time` instant: seconds and nanoseconds counted from January 1, year 1, 00:00:00 UTC,
and the zone offset it is displayed in. -/
structure Time where
  sec : Int
  nsec : Nat
  offset : Int
  deriving DecidableEq, Repr

/-- The method `time.Time.IsZero`: the instant is January 1, year 1, 00:00:00 UTC. -/
def Time.IsZero (t : Time) : Bool := t.sec == 0 && t.nsec == 0

/-- The `%v` / `%d` rendering of a `uint64`: its decimal digits. -/
def formatUint (n : Nat) : String := toString n

/-! ## package model -/

/-- Modelled from the spec: the record `model.Post` (package `model` is not among the sources):
`Id` (unsigned integer), `Title`, `Content` (strings), `CreationDate` (timestamp). -/
structure Post where
  Id : Nat
  Title : String
  Content : String
  CreationDate : Time
  deriving DecidableEq, Repr

/-- Modelled from the spec: the record `model.Comment` (package `model` is not among the sources):
`Id`, `PostId` (unsigned integers), `Comment` (text body), `Author` (string),
`CreationDate` (timestamp). -/
structure Comment where
  Id : Nat
  PostId : Nat
  Comment : String
  Author : String
  CreationDate : Time
  deriving DecidableEq, Repr

/-! ## package repository -/

/-- The error value `CommentAlreadyExistsError`. -/
structure CommentAlreadyExistsError where
  id : Nat
  deriving DecidableEq, Repr

/-- The error value `CommentNotFoundError`. -/
structure CommentNotFoundError where
  id : Nat
  deriving DecidableEq, Repr

/-- The error value `PostAlreadyExistsError`. -/
structure PostAlreadyExistsError where
  id : Nat
  deriving DecidableEq, Repr

/-- The error value `PostNotFoundError`. -/
structure PostNotFoundError where
  id : Nat
  deriving DecidableEq, Repr

/-- `CommentAlreadyExistsError.Error`: `fmt.Sprintf("Comment with id: %v already exists", e.id)`. -/
def CommentAlreadyExistsError.Error (e : CommentAlreadyExistsError) : String :=
  "Comment with id: " ++ formatUint e.id ++ " already exists"

/-- `CommentNotFoundError.Error`: `fmt.Sprintf("Comment with id: %v does not exist", e.id)`. -/
def CommentNotFoundError.Error (e : CommentNotFoundError) : String :=
  "Comment with id: " ++ formatUint e.id ++ " does not exist"

/-- `PostAlreadyExistsError.Error`: `fmt.Sprintf("Post with id: %v does not exist", e.id)`. -/
def PostAlreadyExistsError.Error (e : PostAlreadyExistsError) : String :=
  "Post with id: " ++ formatUint e.id ++ " does not exist"

/-- `PostNotFoundError.Error`: `fmt.Sprintf("Post with id: %v already exists", e.id)`. -/
def PostNotFoundError.Error (e : PostNotFoundError) : String :=
  "Post with id: " ++ formatUint e.id ++ " already exists"

/-- The values of Go's `error` interface that the repositories produce, tagged by dynamic type. -/
inductive RepositoryError where
  | commentAlreadyExists (e : CommentAlreadyExistsError)
  | commentNotFound (e : CommentNotFoundError)
  | postAlreadyExists (e : PostAlreadyExistsError)
  | postNotFound (e : PostNotFoundError)
  deriving DecidableEq, Repr

/-- The method `Error()` of an `error` value, dispatched on its dynamic type. -/
def RepositoryError.Error : RepositoryError → String
  | .commentAlreadyExists e => e.Error
  | .commentNotFound e => e.Error
  | .postAlreadyExists e => e.Error
  | .postNotFound e => e.Error

/-- The struct `CommentRepository`. -/
structure CommentRepository where
  repository : Slice Comment
  deriving DecidableEq, Repr

/-- `CustomCommentRepository(mockStorage)`. -/
def CustomCommentRepository (mockStorage : Slice Comment) : CommentRepository :=
  { repository := mockStorage }

/-- `NewCommentRepository()`. -/
def NewCommentRepository : CommentRepository :=
  CustomCommentRepository Slice.make0

/-- The loop of `CommentRepository.GetById`: the first element whose `Id` is `id`. -/
def CommentRepository.scan (id : Nat) : List Comment → Option Comment
  | [] => none
  | x :: xs => if x.Id == id then some x else CommentRepository.scan id xs

/-- `CommentRepository.GetById`: the entry found (Go returns a pointer to it) or `nil`, and the
error. -/
def CommentRepository.GetById (c : CommentRepository) (id : Nat) :
    Option Comment × Option RepositoryError :=
  match CommentRepository.scan id c.repository.toList with
  | some x => (some x, none)
  | none => (none, some (.commentNotFound { id := id }))

/-- `CommentRepository.Insert`: the repository afterwards and the error returned. -/
def CommentRepository.Insert (c : CommentRepository) (comment : Comment) :
    CommentRepository × Option RepositoryError :=
  match (c.GetById comment.Id).2 with
  | none => (c, some (.commentAlreadyExists { id := comment.Id }))
  | some (.commentNotFound _) => ({ repository := c.repository.append comment }, none)
  | some err => (c, some err)

/-- The loop of `CommentRepository.GetAllByPostId`, started from the accumulator `result`. -/
def CommentRepository.collect (id : Nat) : Slice Comment → List Comment → Slice Comment
  | result, [] => result
  | result, comment :: rest =>
    if comment.PostId == id then CommentRepository.collect id (result.append comment) rest
    else CommentRepository.collect id result rest

/-- `CommentRepository.GetAllByPostId`: `var result []model.Comment` is the nil slice. -/
def CommentRepository.GetAllByPostId (c : CommentRepository) (id : Nat) : Slice Comment :=
  CommentRepository.collect id Slice.nil c.repository.toList

/-- The struct `PostRepository`. -/
structure PostRepository where
  repository : Slice Post
  deriving DecidableEq, Repr

/-- `CustomPostRepository(mockStorage)`. -/
def CustomPostRepository (mockStorage : Slice Post) : PostRepository :=
  { repository := mockStorage }

/-- `NewPostRepository()`. -/
def NewPostRepository : PostRepository :=
  CustomPostRepository Slice.make0

/-- The loop of `PostRepository.GetById`: the first element whose `Id` is `id`. -/
def PostRepository.scan (id : Nat) : List Post → Option Post
  | [] => none
  | x :: xs => if x.Id == id then some x else PostRepository.scan id xs

/-- `PostRepository.GetById`: the entry found (Go returns a pointer to it) or `nil`, and the
error. -/
def PostRepository.GetById (c : PostRepository) (id : Nat) :
    Option Post × Option RepositoryError :=
  match PostRepository.scan id c.repository.toList with
  | some x => (some x, none)
  | none => (none, some (.postNotFound { id := id }))

/-- `PostRepository.Insert`: the repository afterwards and the error returned. -/
def PostRepository.Insert (c : PostRepository) (post : Post) :
    PostRepository × Option RepositoryError :=
  match (c.GetById post.Id).2 with
  | none => (c, some (.postAlreadyExists { id := post.Id }))
  | some (.postNotFound _) => ({ repository := c.repository.append post }, none)
  | some err => (c, some err)

/-! ## Standard-library collaborators of package service -/

/-- A JSON value, as `encoding/json` writes it. -/
inductive JSON where
  | null
  | number (n : Int)
  | string (s : String)
  | array (elems : List JSON)
  | object (fields : List (String × JSON))

/-- One piece of a response body: raw bytes, or the JSON text of a value. -/
inductive BodyPart where
  | bytes (s : String)
  | value (v : JSON)

/-- An `http.Header` map with one value per key; keys are written in canonical form. -/
abbrev Header := List (String × String)

/-- `Header.Get`: the value stored under `key`, `""` when there is none. -/
def Header.Get (h : Header) (key : String) : String :=
  match h.find? (fun kv => kv.1 == key) with
  | some kv => kv.2
  | none => ""

/-- `Header.Del`: remove `key`. -/
def Header.Del (h : Header) (key : String) : Header :=
  h.filter (fun kv => !(kv.1 == key))

/-- `Header.Set`: replace whatever is stored under `key` by `value`. -/
def Header.Set (h : Header) (key value : String) : Header :=
  Header.Del h key ++ [(key, value)]

/-- The state of an `http.ResponseWriter`, after `httptest.ResponseRecorder`: the header map
the handler edits, whether the status line went out, the status code, the header map as it was
when the status line went out, and the body written so far. -/
structure ResponseWriter where
  HeaderMap : Header
  wroteHeader : Bool
  Code : Int
  snapHeader : Header
  Body : List BodyPart

/-- `httptest.NewRecorder()`: nothing written yet, the code preset to 200. -/
def NewRecorder : ResponseWriter :=
  { HeaderMap := [], wroteHeader := false, Code := 200, snapHeader := [], Body := [] }

/-- `w.Header().Set(key, value)`. -/
def ResponseWriter.SetHeader (w : ResponseWriter) (key value : String) : ResponseWriter :=
  { w with HeaderMap := Header.Set w.HeaderMap key value }

/-- `w.Header().Del(key)`. -/
def ResponseWriter.DelHeader (w : ResponseWriter) (key : String) : ResponseWriter :=
  { w with HeaderMap := Header.Del w.HeaderMap key }

/-- `w.WriteHeader(code)`: the first call fixes the code and the headers sent, later calls do
nothing. -/
def ResponseWriter.WriteHeader (w : ResponseWriter) (code : Int) : ResponseWriter :=
  if w.wroteHeader then w
  else { w with wroteHeader := true, Code := code, snapHeader := w.HeaderMap }

/-- `w.Write(data)`: sends status 200 first when no status line went out yet, then appends to
the body. Sniffing a `Content-Type` for a write that has none set is left out: every handler
sets the header before its first write. -/
def ResponseWriter.Write (w : ResponseWriter) (data : List BodyPart) : ResponseWriter :=
  let w1 := w.WriteHeader 200
  { w1 with Body := w1.Body ++ data }

/-- The status code of the response sent (`Result().StatusCode`). -/
def ResponseWriter.StatusCode (w : ResponseWriter) : Int := w.Code

/-- The value of a header of the response sent (`Result().Header.Get(key)`). -/
def ResponseWriter.ResultHeader (w : ResponseWriter) (key : String) : String :=
  Header.Get (if w.wroteHeader then w.snapHeader else w.HeaderMap) key

/-- `http.Error(w, error, code)`: a plain-text reply. -/
def httpError (w : ResponseWriter) (error : String) (code : Int) : ResponseWriter :=
  let w := w.DelHeader "Content-Length"
  let w := w.SetHeader "Content-Type" "text/plain; charset=utf-8"
  let w := w.SetHeader "X-Content-Type-Options" "nosniff"
  let w := w.WriteHeader code
  w.Write [.bytes (error ++ "\n")]

/-- `json.NewEncoder(w).Encode(v)`, given the outcome `v` of marshalling the value: one write
of the JSON text and a newline, and no write at all when marshalling failed. -/
def Encode (w : ResponseWriter) (v : Option JSON) : ResponseWriter :=
  match v with
  | none => w
  | some j => w.Write [.value j, .bytes "\n"]

/-- The constant `http.StatusOK`. -/
def StatusOK : Int := 200

/-- The constant `http.StatusBadRequest`. -/
def StatusBadRequest : Int := 400

/-- The constant `http.StatusNotFound`. -/
def StatusNotFound : Int := 404

/-- The constant `http.StatusInternalServerError`. -/
def StatusInternalServerError : Int := 500

/-- The errors of package `strconv`. -/
inductive NumError where
  | ErrSyntax
  | ErrRange
  deriving DecidableEq, Repr

/-- The digit loop of `strconv.ParseUint` for base 10 and bit size 64, `n` being the value
read so far; `cutoff` is `maxUint64/10 + 1` and additions wrap at `2^64`. -/
def ParseUint.loop : List Char → Nat → Except NumError Nat
  | [], n => .ok n
  | c :: cs, n =>
    if '0' ≤ c ∧ c ≤ '9' then
      let d := c.toNat - '0'.toNat
      if n ≥ (2 ^ 64 - 1) / 10 + 1 then .error .ErrRange
      else
        let n10 := n * 10
        let n1 := (n10 + d) % 2 ^ 64
        if n1 < n10 ∨ n1 > 2 ^ 64 - 1 then .error .ErrRange
        else ParseUint.loop cs n1
    else .error .ErrSyntax

/-- `strconv.ParseUint(s, 10, 64)`. -/
def ParseUint (s : String) : Except NumError Nat :=
  if s == "" then .error .ErrSyntax
  else ParseUint.loop s.toList 0

/-- The parsed query of a URL (`url.Values`): the values given for each key, in order. -/
abbrev Values := List (String × List String)

/-- `Values.Get`: the first value given for `key`, `""` when there is none. -/
def Values.Get (v : Values) (key : String) : String :=
  match v.find? (fun kv => kv.1 == key) with
  | some (_, x :: _) => x
  | _ => ""

/-- What a handler reads of an `http.Request`: `r.URL.Path`, `r.URL.Query()` and the bytes of
`r.Body`. -/
structure Request where
  Path : String
  Query : Values
  Body : String

/-! ## package service -/

/-- The struct `RestApiService`; the two repositories it points to are held by value. -/
structure RestApiService where
  postRepository : PostRepository
  commentRepository : CommentRepository
  deriving DecidableEq, Repr

/-- The struct `AckJsonResponse`. -/
structure AckJsonResponse where
  Message : String
  Status : Int
  deriving DecidableEq, Repr

/-- `NewRestApiService()`. -/
def NewRestApiService : RestApiService :=
  { postRepository := NewPostRepository, commentRepository := NewCommentRepository }

/-- The JSON encoding of an `AckJsonResponse`: an object of its two fields. It cannot fail. -/
def AckJsonResponse.Marshal (a : AckJsonResponse) : Option JSON :=
  some (.object [("Message", .string a.Message), ("Status", .number a.Status)])

/-- The JSON encoding of a `model.Comment`: an object of its five fields, the timestamp
written by `marshalTime` (the text `time.Time.MarshalJSON` yields, `none` when it fails). -/
def marshalComment (marshalTime : Time → Option String) (c : Comment) : Option JSON :=
  match marshalTime c.CreationDate with
  | none => none
  | some t =>
    some (.object [("Id", .number c.Id), ("PostId", .number c.PostId),
      ("Comment", .string c.Comment), ("Author", .string c.Author), ("CreationDate", .string t)])

/-- The JSON encodings of the elements of a list, failing when one of them fails. -/
def marshalElems (marshalTime : Time → Option String) : List Comment → Option (List JSON)
  | [] => some []
  | c :: cs =>
    match marshalComment marshalTime c, marshalElems marshalTime cs with
    | some j, some js => some (j :: js)
    | _, _ => none

/-- The JSON encoding of a `[]model.Comment`: `null` for the nil slice, an array otherwise. -/
def marshalComments (marshalTime : Time → Option String) : Slice Comment → Option JSON
  | .nil => some .null
  | .mk l =>
    match marshalElems marshalTime l with
    | some js => some (.array js)
    | none => none

/-- The handler built by `handleGetCommentsByPostId(svc)`, run on writer `w` and request `r`. -/
def handleGetCommentsByPostId (marshalTime : Time → Option String) (svc : RestApiService)
    (w : ResponseWriter) (r : Request) : RestApiService × ResponseWriter :=
  let w := w.SetHeader "Content-Type" "application/json"
  let query := r.Query
  let postIdStr := Values.Get query "postId"
  if postIdStr == "" then
    let resp : AckJsonResponse :=
      { Message := "Wrong id path variable: postId is missing", Status := StatusBadRequest }
    let w := w.WriteHeader StatusBadRequest
    (svc, Encode w resp.Marshal)
  else
    match ParseUint postIdStr with
    | .error _ =>
      let resp : AckJsonResponse :=
        { Message := "Wrong id path variable: " ++ postIdStr, Status := StatusBadRequest }
      let w := w.WriteHeader StatusBadRequest
      (svc, Encode w resp.Marshal)
    | .ok postId =>
      let comments := svc.commentRepository.GetAllByPostId postId
      let w := w.WriteHeader StatusOK
      (svc, Encode w (marshalComments marshalTime comments))

/-- The handler built by `handleAddComment(svc)`, run on writer `w` and request `r`;
`decodeComment` is `json.NewDecoder(r.Body).Decode` into a `model.Comment`, `none` when it
returns an error. -/
def handleAddComment (decodeComment : String → Option Comment) (svc : RestApiService)
    (w : ResponseWriter) (r : Request) : RestApiService × ResponseWriter :=
  let w := w.SetHeader "Content-Type" "application/json"
  match decodeComment r.Body with
  | none =>
    let resp : AckJsonResponse :=
      { Message := "Could not deserialize comment JSON payload", Status := StatusBadRequest }
    let w := w.WriteHeader StatusBadRequest
    (svc, Encode w resp.Marshal)
  | some comment =>
    if comment.Id == 0 || comment.PostId == 0 || comment.Comment == "" || comment.Author == ""
        || comment.CreationDate.IsZero then
      let resp : AckJsonResponse :=
        { Message := "Could not deserialize comment JSON payload", Status := StatusBadRequest }
      let w := w.WriteHeader StatusBadRequest
      (svc, Encode w resp.Marshal)
    else
      match (svc.commentRepository.GetById comment.Id).2 with
      | none =>
        let resp : AckJsonResponse :=
          { Message := "Comment with id: " ++ formatUint comment.Id ++ " already exists",
            Status := StatusBadRequest }
        let w := w.WriteHeader StatusBadRequest
        (svc, Encode w resp.Marshal)
      | some _ =>
        match svc.commentRepository.Insert comment with
        | (repo, some err) =>
          ({ svc with commentRepository := repo },
            httpError w err.Error StatusInternalServerError)
        | (repo, none) =>
          let resp : AckJsonResponse :=
            { Message := "Comment with id: " ++ formatUint comment.Id ++ " successfully added",
              Status := StatusOK }
          let w := w.WriteHeader StatusOK
          ({ svc with commentRepository := repo }, Encode w resp.Marshal)

/-- The condition of the field check of `handleAddComment` (the `if` after decoding), under a
name for use in statements: some field of the decoded comment holds its zero value. -/
def incomplete (comment : Comment) : Bool :=
  comment.Id == 0 || comment.PostId == 0 || comment.Comment == "" || comment.Author == ""
    || comment.CreationDate.IsZero

/-! ## Scanning a path with `fmt.Sscanf` -/

/-- The ways in which `fmt.Sscanf(str, "/api/posts/%d", &postId)` returns an error. -/
inductive ScanError where
  | unexpectedEOF
  | noMatch
  | unexpectedNewline
  | EOF
  | expectedInteger
  | num (e : NumError)
  deriving DecidableEq, Repr

/-- The function `isSpace` of package `fmt`: the Unicode space ranges of its table. -/
def isSpace (r : Char) : Bool :=
  let x := r.toNat
  if x ≥ 2 ^ 16 then false
  else (0x0009 ≤ x && x ≤ 0x000d) || x == 0x0020 || x == 0x0085 || x == 0x00a0 || x == 0x1680
    || (0x2000 ≤ x && x ≤ 0x200a) || (0x2028 ≤ x && x ≤ 0x2029) || x == 0x202f || x == 0x205f
    || x == 0x3000

/-- The scanner's `peek(ok)`: the next rune, if any, is one of `ok`; nothing is consumed. -/
def peek (ok : List Char) : List Char → Bool
  | [] => false
  | c :: _ => ok.contains c

/-- The scanner's `advance` on a stretch of format holding neither a space nor a `%`: every
format rune must be the next input rune; the input left over is returned. -/
def advance : List Char → List Char → Except ScanError (List Char)
  | [], input => .ok input
  | _ :: _, [] => .error .unexpectedEOF
  | fmtc :: format, inputc :: input =>
    if fmtc == inputc then advance format input else .error .noMatch

/-- The scanner's `SkipSpace` in the mode of `Sscanf`, where a newline is not a space: spaces
are dropped, a newline is an error. -/
def SkipSpace : List Char → Except ScanError (List Char)
  | [] => .ok []
  | r :: rest =>
    if r == '\r' && peek ['\n'] rest then SkipSpace rest
    else if r == '\n' then .error .unexpectedNewline
    else if !isSpace r then .ok (r :: rest)
    else SkipSpace rest

/-- Membership in the scanner's `decimalDigits`. -/
def isDecimalDigit (c : Char) : Bool := "0123456789".toList.contains c

/-- The scanner's `scanNumber(decimalDigits, false)`: the longest run of decimal digits at the
head of the input, which must hold at least one. -/
def scanNumber : List Char → Except ScanError (List Char)
  | [] => .error .EOF
  | c :: cs =>
    if isDecimalDigit c then .ok (c :: cs.takeWhile isDecimalDigit)
    else .error .expectedInteger

/-- The scanner's `scanUint('d', 64)`: skip spaces, demand input, read a run of digits and
hand it to `strconv.ParseUint(tok, 10, 64)`. What follows the digits is not looked at. -/
def scanUint (input : List Char) : Except ScanError Nat :=
  match SkipSpace input with
  | .error e => .error e
  | .ok [] => .error .EOF
  | .ok (c :: cs) =>
    match scanNumber (c :: cs) with
    | .error e => .error e
    | .ok tok =>
      match ParseUint (String.mk tok) with
      | .error e => .error (.num e)
      | .ok i => .ok i

/-- `fmt.Sscanf(str, "/api/posts/%d", &postId)` with `postId` a `uint64`: the literal part of
the format is matched rune by rune, spaces are skipped before the verb, and the verb scans an
unsigned decimal number. The result is the value stored in `postId`, or the error. -/
def Sscanf (str : String) : Except ScanError Nat :=
  match advance "/api/posts/".toList str.toList with
  | .error e => .error e
  | .ok rest =>
    match SkipSpace rest with
    | .error e => .error e
    | .ok rest => scanUint rest

/-! ## package service: the post handlers -/

/-- The JSON encoding of a `model.Post`: an object of its four fields, the timestamp written
by `marshalTime`. -/
def marshalPost (marshalTime : Time → Option String) (p : Post) : Option JSON :=
  match marshalTime p.CreationDate with
  | none => none
  | some t =>
    some (.object [("Id", .number p.Id), ("Title", .string p.Title),
      ("Content", .string p.Content), ("CreationDate", .string t)])

/-- The JSON encoding of a `*model.Post`: `null` for the nil pointer. -/
def marshalPostPtr (marshalTime : Time → Option String) : Option Post → Option JSON
  | none => some .null
  | some p => marshalPost marshalTime p

/-- The handler built by `handleAddPost(svc)`, run on writer `w` and request `r`; `decodePost`
is `json.NewDecoder(r.Body).Decode` into a `model.Post`, `none` when it returns an error.
`json.Marshal` of an `AckJsonResponse` has no failing case, so the text of its error is not
modelled (the empty text stands in its place on a branch never taken), and `w.Write` is the
recorder's, which returns no error. -/
def handleAddPost (decodePost : String → Option Post) (svc : RestApiService)
    (w : ResponseWriter) (r : Request) : RestApiService × ResponseWriter :=
  match decodePost r.Body with
  | none => (svc, httpError w "400 Bad Request" StatusBadRequest)
  | some post =>
    match svc.postRepository.Insert post with
    | (repo, some err) =>
      ({ svc with postRepository := repo }, httpError w err.Error StatusInternalServerError)
    | (repo, none) =>
      let w := w.SetHeader "Content-Type" "application/json"
      let resp : AckJsonResponse :=
        { Message := "Post with id: " ++ formatUint post.Id ++ " successfully added",
          Status := StatusOK }
      match resp.Marshal with
      | none => ({ svc with postRepository := repo }, httpError w "" StatusInternalServerError)
      | some data => ({ svc with postRepository := repo }, w.Write [.value data])

/-- The handler built by `handleGetPostByPostId(svc)`, run on writer `w` and request `r`. -/
def handleGetPostByPostId (marshalTime : Time → Option String) (svc : RestApiService)
    (w : ResponseWriter) (r : Request) : RestApiService × ResponseWriter :=
  let w := w.SetHeader "Content-Type" "application/json"
  match Sscanf r.Path with
  | .error _ =>
    let resp : AckJsonResponse :=
      { Message := "Wrong id path variable: " ++ r.Path, Status := StatusBadRequest }
    let w := w.WriteHeader StatusBadRequest
    (svc, Encode w resp.Marshal)
  | .ok postId =>
    match svc.postRepository.GetById postId with
    | (_, some _) =>
      let resp : AckJsonResponse :=
        { Message := "Post with id: " ++ formatUint postId ++ " does not exist",
          Status := StatusNotFound }
      let w := w.WriteHeader StatusNotFound
      (svc, Encode w resp.Marshal)
    | (post, none) =>
      let w := w.WriteHeader StatusOK
      (svc, Encode w (marshalPostPtr marshalTime post))

/-! ## Decimal numerals, as the specification words them -/

/-- The value of a run of decimal digits read after the value `acc`. -/
def decimalValue (acc : Nat) (l : List Char) : Nat :=
  l.foldl (fun a c => a * 10 + (c.toNat - '0'.toNat)) acc

/-- A string that is a base-10 unsigned 64-bit integer: at least one character, every
character a digit `0` to `9`, and the value at most `2^64 - 1`. -/
def isDecimalUint64 (s : String) : Bool :=
  !s.toList.isEmpty && s.toList.all (fun c => decide ('0' ≤ c ∧ c ≤ '9'))
    && decide (decimalValue 0 s.toList < 2 ^ 64)

/-- The body one call of `Encode` writes for a marshalling outcome. -/
def encoded (v : Option JSON) : List BodyPart :=
  match v with
  | none => []
  | some j => [.value j, .bytes "\n"]

/-- The JSON value of the `{Message, Status}` envelope with the given field values. -/
def envelope (message : String) (status : Int) : JSON :=
  .object [("Message", .string message), ("Status", .number status)]

/-- A response body that carries the envelope with the given field values: its JSON text
alone (written by `Write` after `json.Marshal`) or followed by the newline of `Encode`. -/
def carriesEnvelope (body : List BodyPart) (message : String) (status : Int) : Prop :=
  body = [.value (envelope message status)]
    ∨ body = [.value (envelope message status), .bytes "\n"]

/-! ## Runs of operations -/

/-- The collection after a run of `Insert` calls, errors ignored. -/
def CommentRepository.insertAll (c : CommentRepository) (es : List Comment) : CommentRepository :=
  es.foldl (fun r e => (r.Insert e).1) c

/-- The collection after a run of `Insert` calls, errors ignored. -/
def PostRepository.insertAll (c : PostRepository) (es : List Post) : PostRepository :=
  es.foldl (fun r e => (r.Insert e).1) c

/-! ## Sample data, after the values of the repository and service tests -/

/-- A non-zero instant. -/
def sampleDate : Time := { sec := 63672696000, nsec := 0, offset := 0 }

/-- The value `comment1` of the repository tests. -/
def comment1 : Comment :=
  { Id := 1, PostId := 101, Comment := "comment2", Author := "author2", CreationDate := sampleDate }

/-- The value `comment2` of the repository tests. -/
def comment2 : Comment :=
  { Id := 2, PostId := 101, Comment := "comment2", Author := "author2", CreationDate := sampleDate }

/-- The value `comment3` of the repository tests. -/
def comment3 : Comment :=
  { Id := 3, PostId := 100, Comment := "comment3", Author := "author3", CreationDate := sampleDate }

/-- A comment with the id of `comment1` and other contents. -/
def comment1bis : Comment :=
  { Id := 1, PostId := 7, Comment := "other", Author := "someone", CreationDate := sampleDate }

/-- The value `validPost` of the service tests. -/
def validPost : Post :=
  { Id := 34, Title := "happy post", Content := "test content", CreationDate := sampleDate }

/-- A post with the id of `validPost` and other contents. -/
def validPostBis : Post :=
  { Id := 34, Title := "sad post", Content := "", CreationDate := sampleDate }

/-- The repository of the tests `TestGetAllByPostId` and `TestNoComments`. -/
def threeComments : CommentRepository :=
  CustomCommentRepository (.mk [comment1, comment2, comment3])

/-- The body of the valid comment of the test `TestAddComment`. -/
def validCommentBody : String :=
  "\x7b\"Id\":123,\"PostId\":3,\"Comment\":\"cool cmnt\",\"Author\":\"cool auth\",\"CreationDate\":\"2018-09-16T12:00:00Z\"\x7d"

/-- The comment of the test `TestAddComment`. -/
def validComment : Comment :=
  { Id := 123, PostId := 3, Comment := "cool cmnt", Author := "cool auth",
    CreationDate := sampleDate }

/-- A body with none of the fields of a comment. -/
def weirdBody : String := "\x7b\"weird_payload\":\"weird value\"\x7d"

/-- A body that repeats the id of `comment1` and leaves the author empty. -/
def noAuthorBody : String :=
  "\x7b\"Id\":1,\"PostId\":101,\"Comment\":\"text\",\"Author\":\"\",\"CreationDate\":\"2018-09-16T12:00:00Z\"\x7d"

/-- The zero value of `model.Comment`, what decoding leaves when no field is given. -/
def zeroComment : Comment :=
  { Id := 0, PostId := 0, Comment := "", Author := "",
    CreationDate := { sec := 0, nsec := 0, offset := 0 } }

/-- A decoder defined on the three sample bodies, failing on every other body. -/
def sampleDecode (body : String) : Option Comment :=
  if body == validCommentBody then some validComment
  else if body == weirdBody then some zeroComment
  else if body == noAuthorBody then
    some { Id := 1, PostId := 101, Comment := "text", Author := "", CreationDate := sampleDate }
  else none

/-- A service whose comment repository is the three-comment one and which stores no post. -/
def sampleService : RestApiService :=
  { postRepository := NewPostRepository, commentRepository := threeComments }

/-- The request `GET /api/comments?postId=10101010`, the post id being `NonExistentPostId` of
the repository tests. -/
def noMatchRequest : Request :=
  { Path := "/api/comments", Query := [("postId", ["10101010"])], Body := "" }

/-- A `POST /api/comments` request with the given body. -/
def postComment (body : String) : Request :=
  { Path := "/api/comments", Query := [], Body := body }

/-- The service after a run of Create Post requests, each answered on a new recorder. -/
def runAddPost (decodePost : String → Option Post) (svc : RestApiService)
    (reqs : List Request) : RestApiService :=
  reqs.foldl (fun s r => (handleAddPost decodePost s NewRecorder r).1) svc

/-- A `GET /api/posts/...` request with the given path. -/
def getPost (path : String) : Request :=
  { Path := path, Query := [], Body := "" }

/-- A `GET /api/comments` request with the given query. -/
def getComments (query : Values) : Request :=
  { Path := "/api/comments", Query := query, Body := "" }

/-- A `POST /api/posts` request with the given body. -/
def postPost (body : String) : Request :=
  { Path := "/api/posts", Query := [], Body := body }

/-- The body of `validPost`. -/
def validPostBody : String :=
  "\x7b\"Id\":34,\"Title\":\"happy post\",\"Content\":\"test content\",\"CreationDate\":\"2018-09-16T12:00:00Z\"\x7d"

/-- A body that gives a title and no id. -/
def noIdPostBody : String := "\x7b\"Title\":\"untitled\"\x7d"

/-- The post a body without `Id`, `Content` and `CreationDate` decodes to: they keep their
zero values. -/
def noIdPost : Post :=
  { Id := 0, Title := "untitled", Content := "",
    CreationDate := { sec := 0, nsec := 0, offset := 0 } }

/-- A post decoder defined on the two sample bodies, failing on every other body. -/
def sampleDecodePost (body : String) : Option Post :=
  if body == validPostBody then some validPost
  else if body == noIdPostBody then some noIdPost
  else none

/-- A service that stores `validPost` and no comment. -/
def onePostService : RestApiService :=
  { postRepository := CustomPostRepository (.mk [validPost]),
    commentRepository := NewCommentRepository }

/-- A timestamp marshaller that writes the sample date and fails on every other instant. -/
def sampleMarshalTime (t : Time) : Option String :=
  if t = sampleDate then some "2018-09-16T12:00:00Z" else none

/-! ## Lemmas on the loops -/

theorem slice_toList_nil {α : Type} : (Slice.nil : Slice α).toList = [] := rfl

theorem slice_toList_mk {α : Type} (l : List α) : (Slice.mk l).toList = l := rfl

theorem comment_scan_eq_none (id : Nat) (l : List Comment) :
    CommentRepository.scan id l = none ↔ ∀ x ∈ l, x.Id ≠ id := by
  induction l with
  | nil => simp [CommentRepository.scan]
  | cons a t ih =>
    by_cases h : a.Id = id
    · simp [CommentRepository.scan, h]
    · simp [CommentRepository.scan, h, ih]

theorem comment_scan_eq_some (id : Nat) (l : List Comment) (e : Comment) :
    CommentRepository.scan id l = some e ↔
      ∃ pre post, l = pre ++ e :: post ∧ e.Id = id ∧ ∀ x ∈ pre, x.Id ≠ id := by
  induction l with
  | nil => simp [CommentRepository.scan]
  | cons a t ih =>
    by_cases h : a.Id = id
    · simp only [CommentRepository.scan, h, beq_self_eq_true, if_true, Option.some.injEq]
      constructor
      · rintro rfl
        exact ⟨[], t, rfl, h, by simp⟩
      · rintro ⟨pre, post, hl, _, hpre⟩
        cases pre with
        | nil =>
          simp only [List.nil_append, List.cons.injEq] at hl
          exact hl.1
        | cons b pre =>
          simp only [List.cons_append, List.cons.injEq] at hl
          exact absurd (hl.1 ▸ h) (hpre b (by simp))
    · have hb : (a.Id == id) = false := by simpa using h
      simp only [CommentRepository.scan, hb, Bool.false_eq_true, if_false, ih]
      constructor
      · rintro ⟨pre, post, hl, he, hpre⟩
        refine ⟨a :: pre, post, by simp [hl], he, ?_⟩
        intro x hx
        rcases List.mem_cons.1 hx with rfl | hx
        · exact h
        · exact hpre x hx
      · rintro ⟨pre, post, hl, he, hpre⟩
        cases pre with
        | nil =>
          simp only [List.nil_append, List.cons.injEq] at hl
          exact absurd (hl.1 ▸ he) h
        | cons b pre =>
          simp only [List.cons_append, List.cons.injEq] at hl
          exact ⟨pre, post, hl.2, he, fun x hx => hpre x (by simp [hx])⟩

theorem post_scan_eq_none (id : Nat) (l : List Post) :
    PostRepository.scan id l = none ↔ ∀ x ∈ l, x.Id ≠ id := by
  induction l with
  | nil => simp [PostRepository.scan]
  | cons a t ih =>
    by_cases h : a.Id = id
    · simp [PostRepository.scan, h]
    · simp [PostRepository.scan, h, ih]

theorem post_scan_eq_some (id : Nat) (l : List Post) (e : Post) :
    PostRepository.scan id l = some e ↔
      ∃ pre post, l = pre ++ e :: post ∧ e.Id = id ∧ ∀ x ∈ pre, x.Id ≠ id := by
  induction l with
  | nil => simp [PostRepository.scan]
  | cons a t ih =>
    by_cases h : a.Id = id
    · simp only [PostRepository.scan, h, beq_self_eq_true, if_true, Option.some.injEq]
      constructor
      · rintro rfl
        exact ⟨[], t, rfl, h, by simp⟩
      · rintro ⟨pre, post, hl, _, hpre⟩
        cases pre with
        | nil =>
          simp only [List.nil_append, List.cons.injEq] at hl
          exact hl.1
        | cons b pre =>
          simp only [List.cons_append, List.cons.injEq] at hl
          exact absurd (hl.1 ▸ h) (hpre b (by simp))
    · have hb : (a.Id == id) = false := by simpa using h
      simp only [PostRepository.scan, hb, Bool.false_eq_true, if_false, ih]
      constructor
      · rintro ⟨pre, post, hl, he, hpre⟩
        refine ⟨a :: pre, post, by simp [hl], he, ?_⟩
        intro x hx
        rcases List.mem_cons.1 hx with rfl | hx
        · exact h
        · exact hpre x hx
      · rintro ⟨pre, post, hl, he, hpre⟩
        cases pre with
        | nil =>
          simp only [List.nil_append, List.cons.injEq] at hl
          exact absurd (hl.1 ▸ he) h
        | cons b pre =>
          simp only [List.cons_append, List.cons.injEq] at hl
          exact ⟨pre, post, hl.2, he, fun x hx => hpre x (by simp [hx])⟩

/-- `GetById` on a collection holding the id: the first entry with it, and no error. -/
theorem comment_GetById_of_mem (c : CommentRepository) (id : Nat)
    (h : ∃ x ∈ c.repository.toList, x.Id = id) :
    ∃ e, c.GetById id = (some e, none) ∧ CommentRepository.scan id c.repository.toList = some e := by
  cases hs : CommentRepository.scan id c.repository.toList with
  | none =>
    obtain ⟨x, hx, hid⟩ := h
    exact absurd hid ((comment_scan_eq_none id _).1 hs x hx)
  | some e => exact ⟨e, by simp [CommentRepository.GetById, hs], rfl⟩

/-- `GetById` on a collection not holding the id: `nil` and the not-found error. -/
theorem comment_GetById_of_not_mem (c : CommentRepository) (id : Nat)
    (h : ∀ x ∈ c.repository.toList, x.Id ≠ id) :
    c.GetById id = (none, some (.commentNotFound { id := id })) := by
  have hs := (comment_scan_eq_none id _).2 h
  simp [CommentRepository.GetById, hs]

theorem post_GetById_of_mem (c : PostRepository) (id : Nat)
    (h : ∃ x ∈ c.repository.toList, x.Id = id) :
    ∃ e, c.GetById id = (some e, none) ∧ PostRepository.scan id c.repository.toList = some e := by
  cases hs : PostRepository.scan id c.repository.toList with
  | none =>
    obtain ⟨x, hx, hid⟩ := h
    exact absurd hid ((post_scan_eq_none id _).1 hs x hx)
  | some e => exact ⟨e, by simp [PostRepository.GetById, hs], rfl⟩

theorem post_GetById_of_not_mem (c : PostRepository) (id : Nat)
    (h : ∀ x ∈ c.repository.toList, x.Id ≠ id) :
    c.GetById id = (none, some (.postNotFound { id := id })) := by
  have hs := (post_scan_eq_none id _).2 h
  simp [PostRepository.GetById, hs]

theorem comment_Insert_of_mem (c : CommentRepository) (e : Comment)
    (h : ∃ x ∈ c.repository.toList, x.Id = e.Id) :
    c.Insert e = (c, some (.commentAlreadyExists { id := e.Id })) := by
  obtain ⟨x, hx, _⟩ := comment_GetById_of_mem c e.Id h
  simp [CommentRepository.Insert, hx]

theorem comment_Insert_of_not_mem (c : CommentRepository) (e : Comment)
    (h : ∀ x ∈ c.repository.toList, x.Id ≠ e.Id) :
    c.Insert e = ({ repository := .mk (c.repository.toList ++ [e]) }, none) := by
  simp [CommentRepository.Insert, comment_GetById_of_not_mem c e.Id h, Slice.append]

theorem post_Insert_of_mem (c : PostRepository) (e : Post)
    (h : ∃ x ∈ c.repository.toList, x.Id = e.Id) :
    c.Insert e = (c, some (.postAlreadyExists { id := e.Id })) := by
  obtain ⟨x, hx, _⟩ := post_GetById_of_mem c e.Id h
  simp [PostRepository.Insert, hx]

theorem post_Insert_of_not_mem (c : PostRepository) (e : Post)
    (h : ∀ x ∈ c.repository.toList, x.Id ≠ e.Id) :
    c.Insert e = ({ repository := .mk (c.repository.toList ++ [e]) }, none) := by
  simp [PostRepository.Insert, post_GetById_of_not_mem c e.Id h, Slice.append]

theorem comment_collect_toList (id : Nat) (l : List Comment) (result : Slice Comment) :
    (CommentRepository.collect id result l).toList =
      result.toList ++ l.filter (fun x => x.PostId == id) := by
  induction l generalizing result with
  | nil => simp [CommentRepository.collect]
  | cons a t ih =>
    by_cases h : a.PostId = id
    · have hb : (a.PostId == id) = true := by simpa using h
      simp only [CommentRepository.collect, hb, if_true, ih, List.filter_cons]
      simp [Slice.append, slice_toList_mk]
    · have hb : (a.PostId == id) = false := by simpa using h
      simp only [CommentRepository.collect, hb, Bool.false_eq_true, if_false, ih,
        List.filter_cons]

/-- When nothing matches, the loop hands back its accumulator untouched. -/
theorem comment_collect_of_no_match (id : Nat) (l : List Comment)
    (result : Slice Comment) (h : ∀ x ∈ l, x.PostId ≠ id) :
    CommentRepository.collect id result l = result := by
  induction l generalizing result with
  | nil => simp [CommentRepository.collect]
  | cons a t ih =>
    have ha : a.PostId ≠ id := h a (by simp)
    simp only [CommentRepository.collect, beq_iff_eq, ha, if_false]
    exact ih result (fun x hx => h x (by simp [hx]))

theorem comment_Insert_pairwise (c : CommentRepository) (e : Comment)
    (h : c.repository.toList.Pairwise (fun a b => a.Id ≠ b.Id)) :
    (c.Insert e).1.repository.toList.Pairwise (fun a b => a.Id ≠ b.Id) := by
  by_cases hm : ∃ x ∈ c.repository.toList, x.Id = e.Id
  · rw [comment_Insert_of_mem c e hm]
    exact h
  · have hn : ∀ x ∈ c.repository.toList, x.Id ≠ e.Id := fun x hx hid => hm ⟨x, hx, hid⟩
    rw [comment_Insert_of_not_mem c e hn]
    simp only [Slice.toList, List.pairwise_append, List.pairwise_cons, List.mem_singleton]
    exact ⟨h, ⟨by simp, List.Pairwise.nil⟩, fun a ha b hb => hb ▸ hn a ha⟩

theorem post_Insert_pairwise (c : PostRepository) (e : Post)
    (h : c.repository.toList.Pairwise (fun a b => a.Id ≠ b.Id)) :
    (c.Insert e).1.repository.toList.Pairwise (fun a b => a.Id ≠ b.Id) := by
  by_cases hm : ∃ x ∈ c.repository.toList, x.Id = e.Id
  · rw [post_Insert_of_mem c e hm]
    exact h
  · have hn : ∀ x ∈ c.repository.toList, x.Id ≠ e.Id := fun x hx hid => hm ⟨x, hx, hid⟩
    rw [post_Insert_of_not_mem c e hn]
    simp only [Slice.toList, List.pairwise_append, List.pairwise_cons, List.mem_singleton]
    exact ⟨h, ⟨by simp, List.Pairwise.nil⟩, fun a ha b hb => hb ▸ hn a ha⟩

theorem comment_insertAll_pairwise (es : List Comment) (c : CommentRepository)
    (h : c.repository.toList.Pairwise (fun a b => a.Id ≠ b.Id)) :
    (c.insertAll es).repository.toList.Pairwise (fun a b => a.Id ≠ b.Id) := by
  induction es generalizing c with
  | nil => exact h
  | cons e es ih => exact ih (c.Insert e).1 (comment_Insert_pairwise c e h)

theorem post_insertAll_pairwise (es : List Post) (c : PostRepository)
    (h : c.repository.toList.Pairwise (fun a b => a.Id ≠ b.Id)) :
    (c.insertAll es).repository.toList.Pairwise (fun a b => a.Id ≠ b.Id) := by
  induction es generalizing c with
  | nil => exact h
  | cons e es ih => exact ih (c.Insert e).1 (post_Insert_pairwise c e h)

/-! ## Repository contracts -/

/-- C1: in both repositories, `Insert` of an entity whose `Id` is already the `Id` of a stored
entry returns the already-exists error carrying that `Id` and leaves the repository as it was;
and on a repository with no entries, inserting `e` and then any `e2` with the same `Id` gives
no error, then the already-exists error for that `Id`, and a collection of length 1. -/
theorem insert_existing_id :
    (∀ (c : CommentRepository) (e : Comment), (∃ x ∈ c.repository.toList, x.Id = e.Id) →
      c.Insert e = (c, some (.commentAlreadyExists { id := e.Id })))
    ∧ (∀ (c : PostRepository) (e : Post), (∃ x ∈ c.repository.toList, x.Id = e.Id) →
      c.Insert e = (c, some (.postAlreadyExists { id := e.Id })))
    ∧ (∀ (c : CommentRepository) (e e2 : Comment), c.repository.toList = [] → e2.Id = e.Id →
      (c.Insert e).2 = none
      ∧ ((c.Insert e).1.Insert e2).2 = some (.commentAlreadyExists { id := e.Id })
      ∧ ((c.Insert e).1.Insert e2).1.repository.toList = [e]
      ∧ ((c.Insert e).1.Insert e2).1.repository.len = 1)
    ∧ (∀ (c : PostRepository) (e e2 : Post), c.repository.toList = [] → e2.Id = e.Id →
      (c.Insert e).2 = none
      ∧ ((c.Insert e).1.Insert e2).2 = some (.postAlreadyExists { id := e.Id })
      ∧ ((c.Insert e).1.Insert e2).1.repository.toList = [e]
      ∧ ((c.Insert e).1.Insert e2).1.repository.len = 1) := by
  refine ⟨comment_Insert_of_mem, post_Insert_of_mem, ?_, ?_⟩
  · intro c e e2 hc he
    have h1 : c.Insert e = ({ repository := .mk [e] }, none) := by
      rw [comment_Insert_of_not_mem c e (by simp [hc]), hc]
      rfl
    have h2 : (c.Insert e).1.Insert e2
        = ((c.Insert e).1, some (.commentAlreadyExists { id := e2.Id })) :=
      comment_Insert_of_mem _ e2 ⟨e, by simp [h1, Slice.toList], he.symm⟩
    rw [h2, h1, he]
    exact ⟨rfl, rfl, rfl, rfl⟩
  · intro c e e2 hc he
    have h1 : c.Insert e = ({ repository := .mk [e] }, none) := by
      rw [post_Insert_of_not_mem c e (by simp [hc]), hc]
      rfl
    have h2 : (c.Insert e).1.Insert e2
        = ((c.Insert e).1, some (.postAlreadyExists { id := e2.Id })) :=
      post_Insert_of_mem _ e2 ⟨e, by simp [h1, Slice.toList], he.symm⟩
    rw [h2, h1, he]
    exact ⟨rfl, rfl, rfl, rfl⟩

/-- Witness for C1: the stored `comment1` and `validPost` inserted again under other contents,
and the test `TestInsertExistingComment` on the zero-value repository. -/
theorem insert_existing_id_witness :
    ((∃ x ∈ threeComments.repository.toList, x.Id = comment1bis.Id)
      ∧ threeComments.Insert comment1bis
        = (threeComments, some (.commentAlreadyExists { id := 1 })))
    ∧ ((∃ x ∈ (CustomPostRepository (.mk [validPost])).repository.toList, x.Id = validPostBis.Id)
      ∧ (CustomPostRepository (.mk [validPost])).Insert validPostBis
        = (CustomPostRepository (.mk [validPost]), some (.postAlreadyExists { id := 34 })))
    ∧ ((CommentRepository.mk .nil).repository.toList = [] ∧ comment1bis.Id = comment1.Id
      ∧ (((CommentRepository.mk .nil).Insert comment1).1.Insert comment1bis).2
        = some (.commentAlreadyExists { id := 1 })
      ∧ (((CommentRepository.mk .nil).Insert comment1).1.Insert comment1bis).1.repository.len = 1)
    ∧ (NewPostRepository.repository.toList = [] ∧ validPostBis.Id = validPost.Id
      ∧ ((NewPostRepository.Insert validPost).1.Insert validPostBis).2
        = some (.postAlreadyExists { id := 34 })
      ∧ ((NewPostRepository.Insert validPost).1.Insert validPostBis).1.repository.len = 1) :=
  ⟨⟨by decide, insert_existing_id.1 threeComments comment1bis (by decide)⟩,
    ⟨by decide, insert_existing_id.2.1 (CustomPostRepository (.mk [validPost])) validPostBis
      (by decide)⟩,
    ⟨rfl, rfl,
      (insert_existing_id.2.2.1 (CommentRepository.mk .nil) comment1 comment1bis rfl rfl).2.1,
      (insert_existing_id.2.2.1 (CommentRepository.mk .nil) comment1 comment1bis rfl rfl).2.2.2⟩,
    ⟨rfl, rfl,
      (insert_existing_id.2.2.2 NewPostRepository validPost validPostBis rfl rfl).2.1,
      (insert_existing_id.2.2.2 NewPostRepository validPost validPostBis rfl rfl).2.2.2⟩⟩

/-- C2: in both repositories, `Insert` of an entity whose `Id` is the `Id` of no stored entry
returns no error, and the collection afterwards is the collection before followed by that
entity as its last element. -/
theorem insert_fresh_id :
    (∀ (c : CommentRepository) (e : Comment), (∀ x ∈ c.repository.toList, x.Id ≠ e.Id) →
      (c.Insert e).2 = none ∧ (c.Insert e).1.repository.toList = c.repository.toList ++ [e])
    ∧ (∀ (c : PostRepository) (e : Post), (∀ x ∈ c.repository.toList, x.Id ≠ e.Id) →
      (c.Insert e).2 = none ∧ (c.Insert e).1.repository.toList = c.repository.toList ++ [e]) := by
  constructor
  · intro c e h
    rw [comment_Insert_of_not_mem c e h]
    exact ⟨rfl, rfl⟩
  · intro c e h
    rw [post_Insert_of_not_mem c e h]
    exact ⟨rfl, rfl⟩

/-- Witness for C2: a fourth comment after the three of the tests, and a first post. -/
theorem insert_fresh_id_witness :
    ((∀ x ∈ (CustomCommentRepository (.mk [comment2, comment3])).repository.toList,
        x.Id ≠ comment1.Id)
      ∧ ((CustomCommentRepository (.mk [comment2, comment3])).Insert comment1).2 = none
      ∧ ((CustomCommentRepository (.mk [comment2, comment3])).Insert comment1).1.repository.toList
        = [comment2, comment3, comment1])
    ∧ ((∀ x ∈ NewPostRepository.repository.toList, x.Id ≠ validPost.Id)
      ∧ (NewPostRepository.Insert validPost).2 = none
      ∧ (NewPostRepository.Insert validPost).1.repository.toList = [validPost]) :=
  ⟨⟨by decide,
      insert_fresh_id.1 (CustomCommentRepository (.mk [comment2, comment3])) comment1 (by decide)⟩,
    ⟨by decide, insert_fresh_id.2 NewPostRepository validPost (by decide)⟩⟩

/-- C3: in both repositories, `GetById(id)` returns no error exactly when some entry has that
`Id`; it then returns the first such entry in collection order (every entry before it has
another `Id`); and when no entry has that `Id` it returns `nil` together with the not-found
error carrying the queried id. -/
theorem getById_contract :
    (∀ (c : CommentRepository) (id : Nat),
      ((c.GetById id).2 = none ↔ ∃ x ∈ c.repository.toList, x.Id = id)
      ∧ (∀ e, c.GetById id = (some e, none) ↔
          ∃ pre post, c.repository.toList = pre ++ e :: post ∧ e.Id = id ∧ ∀ x ∈ pre, x.Id ≠ id)
      ∧ ((∃ x ∈ c.repository.toList, x.Id = id) → ∃ e, c.GetById id = (some e, none))
      ∧ ((∀ x ∈ c.repository.toList, x.Id ≠ id) →
          c.GetById id = (none, some (.commentNotFound { id := id }))))
    ∧ (∀ (c : PostRepository) (id : Nat),
      ((c.GetById id).2 = none ↔ ∃ x ∈ c.repository.toList, x.Id = id)
      ∧ (∀ e, c.GetById id = (some e, none) ↔
          ∃ pre post, c.repository.toList = pre ++ e :: post ∧ e.Id = id ∧ ∀ x ∈ pre, x.Id ≠ id)
      ∧ ((∃ x ∈ c.repository.toList, x.Id = id) → ∃ e, c.GetById id = (some e, none))
      ∧ ((∀ x ∈ c.repository.toList, x.Id ≠ id) →
          c.GetById id = (none, some (.postNotFound { id := id })))) := by
  constructor
  · intro c id
    refine ⟨?_, ?_, ?_, comment_GetById_of_not_mem c id⟩
    · constructor
      · intro h
        by_contra hne
        have hn : ∀ x ∈ c.repository.toList, x.Id ≠ id := fun x hx hid => hne ⟨x, hx, hid⟩
        rw [comment_GetById_of_not_mem c id hn] at h
        exact absurd h (by simp)
      · intro h
        obtain ⟨e, he, _⟩ := comment_GetById_of_mem c id h
        rw [he]
    · intro e
      rw [← comment_scan_eq_some]
      cases hs : CommentRepository.scan id c.repository.toList with
      | none => simp [CommentRepository.GetById, hs]
      | some y => simp [CommentRepository.GetById, hs]
    · intro h
      obtain ⟨e, he, _⟩ := comment_GetById_of_mem c id h
      exact ⟨e, he⟩
  · intro c id
    refine ⟨?_, ?_, ?_, post_GetById_of_not_mem c id⟩
    · constructor
      · intro h
        by_contra hne
        have hn : ∀ x ∈ c.repository.toList, x.Id ≠ id := fun x hx hid => hne ⟨x, hx, hid⟩
        rw [post_GetById_of_not_mem c id hn] at h
        exact absurd h (by simp)
      · intro h
        obtain ⟨e, he, _⟩ := post_GetById_of_mem c id h
        rw [he]
    · intro e
      rw [← post_scan_eq_some]
      cases hs : PostRepository.scan id c.repository.toList with
      | none => simp [PostRepository.GetById, hs]
      | some y => simp [PostRepository.GetById, hs]
    · intro h
      obtain ⟨e, he, _⟩ := post_GetById_of_mem c id h
      exact ⟨e, he⟩

/-- Witness for C3: id 2 is stored in the three-comment repository and id 5 is not; id 34 is
not stored in the empty post repository. -/
theorem getById_contract_witness :
    ((∃ x ∈ threeComments.repository.toList, x.Id = 2)
      ∧ ∃ e, threeComments.GetById 2 = (some e, none))
    ∧ ((∀ x ∈ threeComments.repository.toList, x.Id ≠ 5)
      ∧ threeComments.GetById 5 = (none, some (.commentNotFound { id := 5 })))
    ∧ ((∀ x ∈ NewPostRepository.repository.toList, x.Id ≠ 34)
      ∧ NewPostRepository.GetById 34 = (none, some (.postNotFound { id := 34 }))) :=
  ⟨⟨by decide, (getById_contract.1 threeComments 2).2.2.1 (by decide)⟩,
    ⟨by decide, (getById_contract.1 threeComments 5).2.2.2 (by decide)⟩,
    ⟨by decide, (getById_contract.2 NewPostRepository 34).2.2.2 (by decide)⟩⟩

/-- C4: in both repositories, if no two entries of the collection share an `Id` before a call
of `Insert` (whatever its argument and outcome), none do after it; hence the collection reached
from a repository without entries by any finite run of `Insert` calls has pairwise distinct
`Id`s. -/
theorem insert_keeps_ids_distinct :
    (∀ (c : CommentRepository) (e : Comment),
      c.repository.toList.Pairwise (fun a b => a.Id ≠ b.Id) →
      (c.Insert e).1.repository.toList.Pairwise (fun a b => a.Id ≠ b.Id))
    ∧ (∀ (c : PostRepository) (e : Post),
      c.repository.toList.Pairwise (fun a b => a.Id ≠ b.Id) →
      (c.Insert e).1.repository.toList.Pairwise (fun a b => a.Id ≠ b.Id))
    ∧ (∀ (c : CommentRepository) (es : List Comment), c.repository.toList = [] →
      (c.insertAll es).repository.toList.Pairwise (fun a b => a.Id ≠ b.Id))
    ∧ (∀ (c : PostRepository) (es : List Post), c.repository.toList = [] →
      (c.insertAll es).repository.toList.Pairwise (fun a b => a.Id ≠ b.Id)) := by
  refine ⟨comment_Insert_pairwise, post_Insert_pairwise, ?_, ?_⟩
  · intro c es hc
    exact comment_insertAll_pairwise es c (by simp [hc])
  · intro c es hc
    exact post_insertAll_pairwise es c (by simp [hc])

/-- Witness for C4: an insert into the three-comment repository, and a run of inserts with a
repeated id from the empty repositories. -/
theorem insert_keeps_ids_distinct_witness :
    (threeComments.repository.toList.Pairwise (fun a b => a.Id ≠ b.Id)
      ∧ (threeComments.Insert comment1bis).1.repository.toList.Pairwise
          (fun a b => a.Id ≠ b.Id))
    ∧ (NewCommentRepository.repository.toList = []
      ∧ (NewCommentRepository.insertAll
          [comment1, comment2, comment1bis, comment3]).repository.toList.Pairwise
          (fun a b => a.Id ≠ b.Id))
    ∧ (NewPostRepository.repository.toList = []
      ∧ (NewPostRepository.insertAll [validPost, validPostBis]).repository.toList.Pairwise
          (fun a b => a.Id ≠ b.Id)) :=
  ⟨⟨by decide, insert_keeps_ids_distinct.1 threeComments comment1bis (by decide)⟩,
    ⟨rfl, insert_keeps_ids_distinct.2.2.1 NewCommentRepository
      [comment1, comment2, comment1bis, comment3] rfl⟩,
    ⟨rfl, insert_keeps_ids_distinct.2.2.2 NewPostRepository [validPost, validPostBis] rfl⟩⟩

/-- C5: for every comment collection and post id `p`, the elements of `GetAllByPostId(p)` are
the collection filtered to the entries whose `PostId` is `p`: a sub-sequence of the collection
in collection order, holding each entry with that `PostId` as often as the collection does and
no other entry. -/
theorem getAllByPostId_filter (c : CommentRepository) (p : Nat) :
    (c.GetAllByPostId p).toList = c.repository.toList.filter (fun x => x.PostId == p)
    ∧ (c.GetAllByPostId p).toList.Sublist c.repository.toList
    ∧ (∀ e, e.PostId = p →
        (c.GetAllByPostId p).toList.count e = c.repository.toList.count e)
    ∧ (∀ e, e.PostId ≠ p → e ∉ (c.GetAllByPostId p).toList) := by
  have h : (c.GetAllByPostId p).toList = c.repository.toList.filter (fun x => x.PostId == p) := by
    simp [CommentRepository.GetAllByPostId, comment_collect_toList, slice_toList_nil]
  refine ⟨h, ?_, ?_, ?_⟩
  · rw [h]
    exact List.filter_sublist _
  · intro e he
    rw [h, List.count_filter (by simpa using he)]
  · intro e he hmem
    rw [h, List.mem_filter] at hmem
    exact he (by simpa using hmem.2)

/-! ## Lemmas on the handlers -/

theorem incomplete_eq_false (comment : Comment) :
    incomplete comment = false ↔
      comment.Id ≠ 0 ∧ comment.PostId ≠ 0 ∧ comment.Comment ≠ "" ∧ comment.Author ≠ ""
        ∧ comment.CreationDate.IsZero = false := by
  simp [incomplete, and_assoc]

theorem incomplete_eq_true (comment : Comment) :
    incomplete comment = true ↔
      comment.Id = 0 ∨ comment.PostId = 0 ∨ comment.Comment = "" ∨ comment.Author = ""
        ∨ comment.CreationDate.IsZero = true := by
  simp [incomplete, or_assoc]

theorem addComment_decode_error (decodeComment : String → Option Comment)
    (svc : RestApiService) (w : ResponseWriter) (r : Request)
    (hdec : decodeComment r.Body = none) :
    handleAddComment decodeComment svc w r =
      (svc, Encode ((w.SetHeader "Content-Type" "application/json").WriteHeader StatusBadRequest)
        (AckJsonResponse.Marshal
          { Message := "Could not deserialize comment JSON payload",
            Status := StatusBadRequest })) := by
  simp only [handleAddComment, hdec]

theorem addComment_incomplete (decodeComment : String → Option Comment)
    (svc : RestApiService) (w : ResponseWriter) (r : Request) (comment : Comment)
    (hdec : decodeComment r.Body = some comment) (h : incomplete comment = true) :
    handleAddComment decodeComment svc w r =
      (svc, Encode ((w.SetHeader "Content-Type" "application/json").WriteHeader StatusBadRequest)
        (AckJsonResponse.Marshal
          { Message := "Could not deserialize comment JSON payload",
            Status := StatusBadRequest })) := by
  unfold incomplete at h
  simp only [handleAddComment, hdec, h, if_true]

theorem addComment_duplicate (decodeComment : String → Option Comment)
    (svc : RestApiService) (w : ResponseWriter) (r : Request) (comment : Comment)
    (hdec : decodeComment r.Body = some comment) (h : incomplete comment = false)
    (hm : ∃ x ∈ svc.commentRepository.repository.toList, x.Id = comment.Id) :
    handleAddComment decodeComment svc w r =
      (svc, Encode ((w.SetHeader "Content-Type" "application/json").WriteHeader StatusBadRequest)
        (AckJsonResponse.Marshal
          { Message := "Comment with id: " ++ formatUint comment.Id ++ " already exists",
            Status := StatusBadRequest })) := by
  unfold incomplete at h
  obtain ⟨e, he, _⟩ := comment_GetById_of_mem svc.commentRepository comment.Id hm
  simp only [handleAddComment, hdec, h, Bool.false_eq_true, if_false, he]

theorem addComment_fresh (decodeComment : String → Option Comment)
    (svc : RestApiService) (w : ResponseWriter) (r : Request) (comment : Comment)
    (hdec : decodeComment r.Body = some comment) (h : incomplete comment = false)
    (hn : ∀ x ∈ svc.commentRepository.repository.toList, x.Id ≠ comment.Id) :
    handleAddComment decodeComment svc w r =
      ({ svc with commentRepository :=
          { repository := .mk (svc.commentRepository.repository.toList ++ [comment]) } },
        Encode ((w.SetHeader "Content-Type" "application/json").WriteHeader StatusOK)
          (AckJsonResponse.Marshal
            { Message := "Comment with id: " ++ formatUint comment.Id ++ " successfully added",
              Status := StatusOK })) := by
  unfold incomplete at h
  have hg := comment_GetById_of_not_mem svc.commentRepository comment.Id hn
  have hi := comment_Insert_of_not_mem svc.commentRepository comment hn
  simp only [handleAddComment, hdec, h, Bool.false_eq_true, if_false, hg, hi]

/-- With no comment of the post stored, the handler answers 200 with the JSON text `null`. -/
theorem getComments_no_match (marshalTime : Time → Option String) (svc : RestApiService)
    (r : Request) (p : Nat) (hq : ParseUint (Values.Get r.Query "postId") = .ok p)
    (h : ∀ x ∈ svc.commentRepository.repository.toList, x.PostId ≠ p) :
    svc.commentRepository.GetAllByPostId p = Slice.nil
    ∧ (handleGetCommentsByPostId marshalTime svc NewRecorder r).2.StatusCode = 200
    ∧ (handleGetCommentsByPostId marshalTime svc NewRecorder r).2.Body
        = [.value .null, .bytes "\n"] := by
  have hnil : svc.commentRepository.GetAllByPostId p = Slice.nil :=
    comment_collect_of_no_match p _ Slice.nil h
  have hne : (Values.Get r.Query "postId" == "") = false := by
    cases hb : (Values.Get r.Query "postId" == "") with
    | false => rfl
    | true =>
      have he : Values.Get r.Query "postId" = "" := by simpa using hb
      have hempty : ParseUint "" = .error .ErrSyntax := rfl
      rw [he, hempty] at hq
      cases hq
  have hh : handleGetCommentsByPostId marshalTime svc NewRecorder r =
      (svc, Encode ((NewRecorder.SetHeader "Content-Type" "application/json").WriteHeader
        StatusOK) (some .null)) := by
    simp only [handleGetCommentsByPostId, hne, Bool.false_eq_true, if_false, hq, hnil,
      marshalComments]
  rw [hh]
  exact ⟨hnil, rfl, rfl⟩

theorem string_append_left_cancel (a b c : String) (h : a ++ b = a ++ c) : b = c := by
  have hd : (a ++ b).data = (a ++ c).data := by rw [h]
  rw [String.data_append, String.data_append] at hd
  exact String.ext (List.append_cancel_left hd)

/-! ## Repository results and messages as the code gives them -/

/-- C6, as the code behaves: on the repository of the test `TestNoComments` and the post id
`10101010`, which no stored comment has, `GetAllByPostId` returns the nil slice, not a non-nil
empty one, and the handler answers `GET /api/comments?postId=10101010` with status 200 and the
JSON text `null`, not the empty array. -/
theorem getAllByPostId_no_match_is_nil (marshalTime : Time → Option String) :
    threeComments.GetAllByPostId 10101010 = Slice.nil
    ∧ threeComments.GetAllByPostId 10101010 ≠ Slice.mk []
    ∧ (handleGetCommentsByPostId marshalTime sampleService NewRecorder
        noMatchRequest).2.StatusCode = 200
    ∧ (handleGetCommentsByPostId marshalTime sampleService NewRecorder noMatchRequest).2.Body
        = [.value .null, .bytes "\n"]
    ∧ (handleGetCommentsByPostId marshalTime sampleService NewRecorder noMatchRequest).2.Body
        ≠ [.value (.array []), .bytes "\n"] := by
  have h := getComments_no_match marshalTime sampleService noMatchRequest 10101010 rfl
    (by decide)
  refine ⟨h.1, ?_, h.2.1, h.2.2, ?_⟩
  · have h1 : threeComments.GetAllByPostId 10101010 = Slice.nil := h.1
    rw [h1]
    exact fun hc => Slice.noConfusion hc
  · rw [h.2.2]
    intro hc
    injection hc with hhead _
    injection hhead with hv
    exact JSON.noConfusion hv

/-- C7, as the code behaves: for every id the two Comment errors read "Comment with id: <id>
already exists" and "Comment with id: <id> does not exist", but the Post already-exists error
reads "Post with id: <id> does not exist" and the Post not-found error reads "Post with id:
<id> already exists": each of the two Post messages names the other condition. -/
theorem post_error_messages_swapped (id : Nat) :
    CommentAlreadyExistsError.Error { id := id }
      = "Comment with id: " ++ formatUint id ++ " already exists"
    ∧ CommentNotFoundError.Error { id := id }
      = "Comment with id: " ++ formatUint id ++ " does not exist"
    ∧ PostAlreadyExistsError.Error { id := id }
      = "Post with id: " ++ formatUint id ++ " does not exist"
    ∧ PostNotFoundError.Error { id := id }
      = "Post with id: " ++ formatUint id ++ " already exists"
    ∧ PostAlreadyExistsError.Error { id := id }
      ≠ "Post with id: " ++ formatUint id ++ " already exists"
    ∧ PostNotFoundError.Error { id := id }
      ≠ "Post with id: " ++ formatUint id ++ " does not exist"
    ∧ (PostRepository.Insert (CustomPostRepository (.mk [validPost])) validPost).2.map
        RepositoryError.Error = some "Post with id: 34 does not exist" := by
  refine ⟨rfl, rfl, rfl, rfl, ?_, ?_, by decide⟩
  · intro h
    have h1 := string_append_left_cancel _ _ _
      (string_append_left_cancel _ _ _
        (by simpa [PostAlreadyExistsError.Error, String.append_assoc] using h))
    exact absurd h1 (by decide)
  · intro h
    have h1 := string_append_left_cancel _ _ _
      (string_append_left_cancel _ _ _
        (by simpa [PostNotFoundError.Error, String.append_assoc] using h))
    exact absurd h1 (by decide)

/-! ## Create Comment handler -/

/-- C8: for every service state and every body that decodes to a comment whose `Id` and
`PostId` are non-zero, whose text and author are non-empty, whose creation date is not the
zero time, and whose `Id` is the `Id` of no stored comment, the Create Comment handler answers
with status 200, content type `application/json` and the envelope with message "Comment with
id: <id> successfully added" and status 200; the comment collection afterwards is the one
before followed by that comment, and the post repository, on which nothing is assumed, is left
as it was. -/
theorem handleAddComment_success (decodeComment : String → Option Comment)
    (svc : RestApiService) (r : Request) (comment : Comment)
    (hdec : decodeComment r.Body = some comment)
    (hId : comment.Id ≠ 0) (hPostId : comment.PostId ≠ 0) (hText : comment.Comment ≠ "")
    (hAuthor : comment.Author ≠ "") (hDate : comment.CreationDate.IsZero = false)
    (hfresh : ∀ x ∈ svc.commentRepository.repository.toList, x.Id ≠ comment.Id) :
    (handleAddComment decodeComment svc NewRecorder r).2.StatusCode = 200
    ∧ (handleAddComment decodeComment svc NewRecorder r).2.Body
      = [.value (.object
          [("Message", .string
              ("Comment with id: " ++ formatUint comment.Id ++ " successfully added")),
            ("Status", .number 200)]),
          .bytes "\n"]
    ∧ (handleAddComment decodeComment svc NewRecorder r).2.ResultHeader "Content-Type"
      = "application/json"
    ∧ (handleAddComment decodeComment svc NewRecorder r).1.commentRepository.repository.toList
      = svc.commentRepository.repository.toList ++ [comment]
    ∧ (handleAddComment decodeComment svc NewRecorder r).1.postRepository
      = svc.postRepository := by
  have hc : incomplete comment = false :=
    (incomplete_eq_false comment).2 ⟨hId, hPostId, hText, hAuthor, hDate⟩
  rw [addComment_fresh decodeComment svc NewRecorder r comment hdec hc hfresh]
  exact ⟨rfl, rfl, rfl, rfl, rfl⟩

/-- Witness for C8: the comment of `TestAddComment`, with `PostId` 3, posted to a service
that stores three other comments and no post at all. -/
theorem handleAddComment_success_witness :
    sampleDecode (postComment validCommentBody).Body = some validComment
    ∧ (∀ x ∈ sampleService.commentRepository.repository.toList, x.Id ≠ validComment.Id)
    ∧ sampleService.postRepository.repository.toList = []
    ∧ (handleAddComment sampleDecode sampleService NewRecorder
        (postComment validCommentBody)).2.StatusCode = 200
    ∧ (handleAddComment sampleDecode sampleService NewRecorder
        (postComment validCommentBody)).2.Body
      = [.value (.object
          [("Message", .string "Comment with id: 123 successfully added"),
            ("Status", .number 200)]),
          .bytes "\n"]
    ∧ (handleAddComment sampleDecode sampleService NewRecorder
        (postComment validCommentBody)).1.commentRepository.repository.toList
      = [comment1, comment2, comment3, validComment] :=
  ⟨by decide, by decide, rfl,
    (handleAddComment_success sampleDecode sampleService (postComment validCommentBody)
      validComment (by decide) (by decide) (by decide) (by decide) (by decide) (by decide)
      (by decide)).1,
    (handleAddComment_success sampleDecode sampleService (postComment validCommentBody)
      validComment (by decide) (by decide) (by decide) (by decide) (by decide) (by decide)
      (by decide)).2.1,
    (handleAddComment_success sampleDecode sampleService (postComment validCommentBody)
      validComment (by decide) (by decide) (by decide) (by decide) (by decide) (by decide)
      (by decide)).2.2.2.1⟩

/-- C9: for every service state and every body that decodes to a comment in which `Id` is 0,
or `PostId` is 0, or the text is empty, or the author is empty, or the creation date is the
zero time, the Create Comment handler answers with status 400, content type
`application/json` and the envelope with message "Could not deserialize comment JSON payload"
and status 400; the service is left as it was; the outcome is the one of any body that fails
to decode. Nothing is assumed on the `Id` being stored or not, so this answer is given also
when it is. -/
theorem handleAddComment_incomplete (decodeComment : String → Option Comment)
    (svc : RestApiService) (r : Request) (comment : Comment)
    (hdec : decodeComment r.Body = some comment)
    (h : comment.Id = 0 ∨ comment.PostId = 0 ∨ comment.Comment = "" ∨ comment.Author = ""
      ∨ comment.CreationDate.IsZero = true) :
    (handleAddComment decodeComment svc NewRecorder r).2.StatusCode = 400
    ∧ (handleAddComment decodeComment svc NewRecorder r).2.Body
      = [.value (.object
          [("Message", .string "Could not deserialize comment JSON payload"),
            ("Status", .number 400)]),
          .bytes "\n"]
    ∧ (handleAddComment decodeComment svc NewRecorder r).2.ResultHeader "Content-Type"
      = "application/json"
    ∧ (handleAddComment decodeComment svc NewRecorder r).1 = svc
    ∧ (∀ r2 : Request, decodeComment r2.Body = none →
        handleAddComment decodeComment svc NewRecorder r2
          = handleAddComment decodeComment svc NewRecorder r) := by
  have hc : incomplete comment = true := (incomplete_eq_true comment).2 h
  rw [addComment_incomplete decodeComment svc NewRecorder r comment hdec hc]
  refine ⟨rfl, rfl, rfl, rfl, ?_⟩
  intro r2 h2
  rw [addComment_decode_error decodeComment svc NewRecorder r2 h2]

/-- Witness for C9: a body that repeats the stored id 1 and has an empty author, posted to the
three-comment service; an undecodable body gets the same outcome. -/
theorem handleAddComment_incomplete_witness :
    sampleDecode (postComment noAuthorBody).Body
      = some { Id := 1, PostId := 101, Comment := "text", Author := "",
               CreationDate := sampleDate }
    ∧ (∃ x ∈ sampleService.commentRepository.repository.toList, x.Id = 1)
    ∧ sampleDecode (postComment "not json").Body = none
    ∧ (handleAddComment sampleDecode sampleService NewRecorder
        (postComment noAuthorBody)).2.StatusCode = 400
    ∧ (handleAddComment sampleDecode sampleService NewRecorder (postComment noAuthorBody)).2.Body
      = [.value (.object
          [("Message", .string "Could not deserialize comment JSON payload"),
            ("Status", .number 400)]),
          .bytes "\n"]
    ∧ (handleAddComment sampleDecode sampleService NewRecorder (postComment noAuthorBody)).1
      = sampleService
    ∧ handleAddComment sampleDecode sampleService NewRecorder (postComment "not json")
      = handleAddComment sampleDecode sampleService NewRecorder (postComment noAuthorBody) :=
  ⟨by decide, by decide, by decide,
    (handleAddComment_incomplete sampleDecode sampleService (postComment noAuthorBody)
      { Id := 1, PostId := 101, Comment := "text", Author := "", CreationDate := sampleDate }
      (by decide) (by decide)).1,
    (handleAddComment_incomplete sampleDecode sampleService (postComment noAuthorBody)
      { Id := 1, PostId := 101, Comment := "text", Author := "", CreationDate := sampleDate }
      (by decide) (by decide)).2.1,
    (handleAddComment_incomplete sampleDecode sampleService (postComment noAuthorBody)
      { Id := 1, PostId := 101, Comment := "text", Author := "", CreationDate := sampleDate }
      (by decide) (by decide)).2.2.2.1,
    (handleAddComment_incomplete sampleDecode sampleService (postComment noAuthorBody)
      { Id := 1, PostId := 101, Comment := "text", Author := "", CreationDate := sampleDate }
      (by decide) (by decide)).2.2.2.2 (postComment "not json") (by decide)⟩

/-- C10: for every service state and every body that decodes to a comment with all five fields
set whose `Id` is the `Id` of a stored comment, the Create Comment handler answers with status
400, content type `application/json` and the envelope with message "Comment with id: <id>
already exists" and status 400, and leaves the service as it was; and posting a body that
decodes to such a comment twice to a service with no stored comment gives status 200 and then
this 400 answer, the collection holding the comment once. -/
theorem handleAddComment_duplicate :
    (∀ (decodeComment : String → Option Comment) (svc : RestApiService) (r : Request)
        (comment : Comment), decodeComment r.Body = some comment →
      comment.Id ≠ 0 → comment.PostId ≠ 0 → comment.Comment ≠ "" → comment.Author ≠ "" →
      comment.CreationDate.IsZero = false →
      (∃ x ∈ svc.commentRepository.repository.toList, x.Id = comment.Id) →
      (handleAddComment decodeComment svc NewRecorder r).2.StatusCode = 400
      ∧ (handleAddComment decodeComment svc NewRecorder r).2.Body
        = [.value (.object
            [("Message", .string
                ("Comment with id: " ++ formatUint comment.Id ++ " already exists")),
              ("Status", .number 400)]),
            .bytes "\n"]
      ∧ (handleAddComment decodeComment svc NewRecorder r).2.ResultHeader "Content-Type"
        = "application/json"
      ∧ (handleAddComment decodeComment svc NewRecorder r).1 = svc)
    ∧ (∀ (decodeComment : String → Option Comment) (svc : RestApiService) (r : Request)
        (comment : Comment), decodeComment r.Body = some comment →
      comment.Id ≠ 0 → comment.PostId ≠ 0 → comment.Comment ≠ "" → comment.Author ≠ "" →
      comment.CreationDate.IsZero = false →
      svc.commentRepository.repository.toList = [] →
      (handleAddComment decodeComment svc NewRecorder r).2.StatusCode = 200
      ∧ (handleAddComment decodeComment
          (handleAddComment decodeComment svc NewRecorder r).1 NewRecorder r).2.StatusCode = 400
      ∧ (handleAddComment decodeComment
          (handleAddComment decodeComment svc NewRecorder r).1 NewRecorder r).2.Body
        = [.value (.object
            [("Message", .string
                ("Comment with id: " ++ formatUint comment.Id ++ " already exists")),
              ("Status", .number 400)]),
            .bytes "\n"]
      ∧ (handleAddComment decodeComment
          (handleAddComment decodeComment svc NewRecorder r).1 NewRecorder
            r).1.commentRepository.repository.toList = [comment]) := by
  have key : ∀ (decodeComment : String → Option Comment) (svc : RestApiService) (r : Request)
      (comment : Comment), decodeComment r.Body = some comment → incomplete comment = false →
      (∃ x ∈ svc.commentRepository.repository.toList, x.Id = comment.Id) →
      (handleAddComment decodeComment svc NewRecorder r).2.StatusCode = 400
      ∧ (handleAddComment decodeComment svc NewRecorder r).2.Body
        = [.value (.object
            [("Message", .string
                ("Comment with id: " ++ formatUint comment.Id ++ " already exists")),
              ("Status", .number 400)]),
            .bytes "\n"]
      ∧ (handleAddComment decodeComment svc NewRecorder r).2.ResultHeader "Content-Type"
        = "application/json"
      ∧ (handleAddComment decodeComment svc NewRecorder r).1 = svc := by
    intro decodeComment svc r comment hdec hc hm
    rw [addComment_duplicate decodeComment svc NewRecorder r comment hdec hc hm]
    exact ⟨rfl, rfl, rfl, rfl⟩
  constructor
  · intro decodeComment svc r comment hdec hId hPostId hText hAuthor hDate hm
    exact key decodeComment svc r comment hdec
      ((incomplete_eq_false comment).2 ⟨hId, hPostId, hText, hAuthor, hDate⟩) hm
  · intro decodeComment svc r comment hdec hId hPostId hText hAuthor hDate hempty
    have hc : incomplete comment = false :=
      (incomplete_eq_false comment).2 ⟨hId, hPostId, hText, hAuthor, hDate⟩
    have h1 := addComment_fresh decodeComment svc NewRecorder r comment hdec hc
      (by simp [hempty])
    rw [hempty] at h1
    have hm : ∃ x ∈ (handleAddComment decodeComment svc NewRecorder
        r).1.commentRepository.repository.toList, x.Id = comment.Id := by
      rw [h1]
      exact ⟨comment, by simp [slice_toList_mk], rfl⟩
    have h2 := key decodeComment (handleAddComment decodeComment svc NewRecorder r).1 r comment
      hdec hc hm
    refine ⟨?_, h2.1, h2.2.1, ?_⟩
    · rw [h1]
      rfl
    · rw [h2.2.2.2, h1]
      rfl

/-- Witness for C10: the valid comment of `TestAddComment` posted again to a service that
stores it, and posted twice to the new service. -/
theorem handleAddComment_duplicate_witness :
    (sampleDecode (postComment validCommentBody).Body = some validComment
      ∧ (∃ x ∈ [validComment], x.Id = validComment.Id)
      ∧ (handleAddComment sampleDecode
          { postRepository := NewPostRepository,
            commentRepository := CustomCommentRepository (.mk [validComment]) }
          NewRecorder (postComment validCommentBody)).2.Body
        = [.value (.object
            [("Message", .string "Comment with id: 123 already exists"),
              ("Status", .number 400)]),
            .bytes "\n"])
    ∧ (NewRestApiService.commentRepository.repository.toList = []
      ∧ (handleAddComment sampleDecode NewRestApiService NewRecorder
          (postComment validCommentBody)).2.StatusCode = 200
      ∧ (handleAddComment sampleDecode
          (handleAddComment sampleDecode NewRestApiService NewRecorder
            (postComment validCommentBody)).1 NewRecorder
          (postComment validCommentBody)).2.StatusCode = 400) :=
  ⟨⟨by decide, by decide,
      (handleAddComment_duplicate.1 sampleDecode
        { postRepository := NewPostRepository,
          commentRepository := CustomCommentRepository (.mk [validComment]) }
        (postComment validCommentBody) validComment (by decide) (by decide) (by decide)
        (by decide) (by decide) (by decide) (by decide)).2.1⟩,
    ⟨rfl,
      (handleAddComment_duplicate.2 sampleDecode NewRestApiService
        (postComment validCommentBody) validComment (by decide) (by decide) (by decide)
        (by decide) (by decide) (by decide) rfl).1,
      (handleAddComment_duplicate.2 sampleDecode NewRestApiService
        (postComment validCommentBody) validComment (by decide) (by decide) (by decide)
        (by decide) (by decide) (by decide) rfl).2.1⟩⟩

/-! ## Lemmas on decimal numerals -/

theorem decimalValue_ge (l : List Char) (acc : Nat) : acc ≤ decimalValue acc l := by
  induction l generalizing acc with
  | nil => exact Nat.le_refl _
  | cons c cs ih =>
    have h := ih (acc * 10 + (c.toNat - '0'.toNat))
    have h2 : decimalValue acc (c :: cs) = decimalValue (acc * 10 + (c.toNat - '0'.toNat)) cs :=
      rfl
    omega

theorem char_digit_toNat (c : Char) (h : '0' ≤ c ∧ c ≤ '9') : 48 ≤ c.toNat ∧ c.toNat ≤ 57 := by
  obtain ⟨h0, h9⟩ := h
  have h0' : ('0' : Char).toNat ≤ c.toNat := h0
  have h9' : c.toNat ≤ ('9' : Char).toNat := h9
  have e0 : ('0' : Char).toNat = 48 := rfl
  have e9 : ('9' : Char).toNat = 57 := rfl
  omega

/-- The digit loop of `ParseUint` returns a value exactly on a run of digits whose value,
read after `n`, stays below `2^64`; the value returned is that value. -/
theorem parseUint_loop_ok (l : List Char) (n m : Nat) (hn : n < 2 ^ 64) :
    ParseUint.loop l n = .ok m ↔
      (∀ c ∈ l, '0' ≤ c ∧ c ≤ '9') ∧ decimalValue n l = m ∧ m < 2 ^ 64 := by
  induction l generalizing n with
  | nil =>
    simp only [ParseUint.loop, Except.ok.injEq, List.not_mem_nil, false_implies, implies_true,
      true_and, decimalValue, List.foldl_nil]
    constructor
    · rintro rfl
      exact ⟨rfl, hn⟩
    · rintro ⟨h, _⟩
      exact h
  | cons c cs ih =>
    have hstep : decimalValue n (c :: cs) = decimalValue (n * 10 + (c.toNat - '0'.toNat)) cs :=
      rfl
    have e0 : ('0' : Char).toNat = 48 := rfl
    by_cases hd : '0' ≤ c ∧ c ≤ '9'
    · have hc := char_digit_toNat c hd
      by_cases hcut : n ≥ (2 ^ 64 - 1) / 10 + 1
      · simp only [ParseUint.loop, hd, and_self, if_true, hcut]
        constructor
        · intro h
          cases h
        · rintro ⟨_, hv, hm⟩
          have hge := decimalValue_ge cs (n * 10 + (c.toNat - '0'.toNat))
          rw [hstep] at hv
          norm_num at hcut hm
          omega
      · by_cases hov : (n * 10 + (c.toNat - '0'.toNat)) % 2 ^ 64 < n * 10
            ∨ (n * 10 + (c.toNat - '0'.toNat)) % 2 ^ 64 > 2 ^ 64 - 1
        · simp only [ParseUint.loop, hd, and_self, if_true, hcut, if_false, hov]
          constructor
          · intro h
            cases h
          · rintro ⟨_, hv, hm⟩
            have hge := decimalValue_ge cs (n * 10 + (c.toNat - '0'.toNat))
            rw [hstep] at hv
            norm_num at hcut hm hov
            omega
        · have hlt : n * 10 + (c.toNat - '0'.toNat) < 2 ^ 64 := by
            norm_num at hcut hov ⊢
            omega
          have hmod : (n * 10 + (c.toNat - '0'.toNat)) % 2 ^ 64
              = n * 10 + (c.toNat - '0'.toNat) := Nat.mod_eq_of_lt hlt
          simp only [ParseUint.loop, hd, and_self, if_true, hcut, if_false, hov]
          rw [hmod, ih _ hlt, hstep]
          constructor
          · rintro ⟨hall, hv, hm⟩
            refine ⟨?_, hv, hm⟩
            intro x hx
            rcases List.mem_cons.1 hx with rfl | hx
            · exact hd
            · exact hall x hx
          · rintro ⟨hall, hv, hm⟩
            exact ⟨fun x hx => hall x (List.mem_cons_of_mem _ hx), hv, hm⟩
    · simp only [ParseUint.loop, hd, if_false]
      constructor
      · intro h
        cases h
      · rintro ⟨hall, _, _⟩
        exact absurd (hall c (List.mem_cons_self _ _)) hd

theorem string_beq_empty (s : String) : (s == "") = s.toList.isEmpty := by
  cases s with
  | mk l =>
    cases l with
    | nil => rfl
    | cons a t =>
      have h1 : (String.mk (a :: t) == "") = false := by
        rw [beq_eq_false_iff_ne]
        intro h
        have := congrArg String.data h
        simp at this
      rw [h1]
      rfl

/-- `ParseUint(s, 10, 64)` returns a value exactly for the base-10 unsigned 64-bit integers,
and the value is the one the digits denote. -/
theorem parseUint_ok_iff (s : String) (m : Nat) :
    ParseUint s = .ok m ↔ isDecimalUint64 s = true ∧ decimalValue 0 s.toList = m := by
  unfold ParseUint isDecimalUint64
  rw [string_beq_empty]
  cases he : s.toList.isEmpty with
  | true => simp
  | false =>
    simp only [Bool.false_eq_true, if_false, Bool.not_false, Bool.true_and, Bool.and_eq_true,
      List.all_eq_true, decide_eq_true_eq]
    rw [parseUint_loop_ok s.toList 0 m (by norm_num)]
    constructor
    · rintro ⟨hall, hv, hm⟩
      exact ⟨⟨hall, hv ▸ hm⟩, hv⟩
    · rintro ⟨⟨hall, hlt⟩, hv⟩
      exact ⟨hall, hv, hv ▸ hlt⟩

theorem parseUint_error_of_not_decimal (s : String) (h : isDecimalUint64 s = false) :
    ∃ e, ParseUint s = .error e := by
  cases hp : ParseUint s with
  | error e => exact ⟨e, rfl⟩
  | ok m =>
    have := ((parseUint_ok_iff s m).1 hp).1
    rw [h] at this
    cases this

theorem digitChar_decimal (m : Nat) (hm : m < 10) :
    isDecimalDigit (Nat.digitChar m) = true
    ∧ (Nat.digitChar m).toNat - ('0' : Char).toNat = m := by
  interval_cases m <;> exact ⟨rfl, rfl⟩

theorem decimalValue_append (a b : List Char) (acc : Nat) :
    decimalValue acc (a ++ b) = decimalValue (decimalValue acc a) b := by
  simp [decimalValue, List.foldl_append]

/-- With fuel above `n`, `Nat.toDigitsCore 10` puts in front of its accumulator a non-empty run
of decimal digits whose value is `n`. -/
theorem toDigitsCore_decimal (fuel : Nat) : ∀ (n : Nat) (ds : List Char), n < fuel →
    ∃ pre : List Char, Nat.toDigitsCore 10 fuel n ds = pre ++ ds ∧ pre ≠ []
      ∧ (∀ c ∈ pre, isDecimalDigit c = true)
      ∧ ∀ acc, decimalValue acc pre = acc * 10 ^ pre.length + n := by
  induction fuel with
  | zero =>
    intro n ds h
    exact absurd h (Nat.not_lt_zero _)
  | succ fuel ih =>
    intro n ds hn
    have hmod : n % 10 < 10 := Nat.mod_lt _ (by norm_num)
    obtain ⟨hdig, hval⟩ := digitChar_decimal (n % 10) hmod
    by_cases hq : n / 10 = 0
    · refine ⟨[Nat.digitChar (n % 10)], by simp [Nat.toDigitsCore, hq], by simp, ?_, ?_⟩
      · intro c hc
        rw [List.mem_singleton.1 hc]
        exact hdig
      · intro acc
        simp only [decimalValue, List.foldl_cons, List.foldl_nil, List.length_singleton,
          pow_one]
        rw [hval]
        omega
    · obtain ⟨pre, hpre, _, hall, hv⟩ := ih (n / 10) (Nat.digitChar (n % 10) :: ds) (by omega)
      refine ⟨pre ++ [Nat.digitChar (n % 10)], ?_, by simp, ?_, ?_⟩
      · simp only [Nat.toDigitsCore, hq, if_false, hpre, List.append_assoc,
          List.singleton_append]
      · intro c hc
        rcases List.mem_append.1 hc with h | h
        · exact hall c h
        · rw [List.mem_singleton.1 h]
          exact hdig
      · intro acc
        rw [decimalValue_append, hv acc]
        simp only [decimalValue, List.foldl_cons, List.foldl_nil, List.length_append,
          List.length_singleton]
        rw [hval, pow_succ]
        have := Nat.div_add_mod n 10
        nlinarith [Nat.div_add_mod n 10]

/-- The decimal rendering of `n`: a non-empty run of decimal digits whose value is `n`. -/
theorem formatUint_decimal (n : Nat) :
    (formatUint n).toList ≠ [] ∧ (∀ c ∈ (formatUint n).toList, isDecimalDigit c = true)
      ∧ decimalValue 0 (formatUint n).toList = n := by
  obtain ⟨pre, hpre, hne, hall, hv⟩ := toDigitsCore_decimal (n + 1) n [] (Nat.lt_succ_self n)
  have hl : (formatUint n).toList = pre := by
    show (Nat.toDigits 10 n).asString.toList = pre
    simp only [Nat.toDigits, hpre, List.append_nil, List.asString, String.toList]
  rw [hl]
  refine ⟨hne, hall, ?_⟩
  rw [hv 0]
  omega

theorem decimalDigit_cases (c : Char) (h : isDecimalDigit c = true) :
    c = '0' ∨ c = '1' ∨ c = '2' ∨ c = '3' ∨ c = '4' ∨ c = '5' ∨ c = '6' ∨ c = '7' ∨ c = '8'
      ∨ c = '9' := by
  have hl : "0123456789".toList = ['0', '1', '2', '3', '4', '5', '6', '7', '8', '9'] := rfl
  unfold isDecimalDigit at h
  rw [hl] at h
  simpa using h

theorem decimalDigit_range (c : Char) (h : isDecimalDigit c = true) : '0' ≤ c ∧ c ≤ '9' := by
  rcases decimalDigit_cases c h with h | h | h | h | h | h | h | h | h | h <;> subst h <;> decide

theorem skipSpace_digit (c : Char) (rest : List Char) (h : isDecimalDigit c = true) :
    SkipSpace (c :: rest) = .ok (c :: rest) := by
  rcases decimalDigit_cases c h with h | h | h | h | h | h | h | h | h | h <;> subst h <;> rfl

/-- A non-empty run of decimal digits with a value below `2^64`, followed by nothing, is
scanned by `scanUint` as that value. -/
theorem scanUint_digits (l : List Char) (hne : l ≠ [])
    (hall : ∀ c ∈ l, isDecimalDigit c = true) (hlt : decimalValue 0 l < 2 ^ 64) :
    scanUint l = .ok (decimalValue 0 l) := by
  cases l with
  | nil => exact absurd rfl hne
  | cons c cs =>
    have hc : isDecimalDigit c = true := hall c (List.mem_cons_self _ _)
    have htw : cs.takeWhile isDecimalDigit = cs :=
      List.takeWhile_eq_self_iff.2 (fun x hx => hall x (List.mem_cons_of_mem _ hx))
    have hp : ParseUint (String.mk (c :: cs)) = .ok (decimalValue 0 (c :: cs)) := by
      rw [parseUint_ok_iff]
      refine ⟨?_, rfl⟩
      simp only [isDecimalUint64, String.toList, List.isEmpty_cons, Bool.not_false,
        Bool.true_and, Bool.and_eq_true, List.all_eq_true, decide_eq_true_eq]
      exact ⟨fun x hx => decimalDigit_range x (hall x hx), hlt⟩
    simp only [scanUint, skipSpace_digit c cs hc, scanNumber, hc, if_true, htw, hp]

/-- On a path made of `/api/posts/` and the decimal rendering of an unsigned 64-bit integer,
`Sscanf` returns that integer. -/
theorem sscanf_canonical (n : Nat) (hn : n < 2 ^ 64) :
    Sscanf ("/api/posts/" ++ formatUint n) = .ok n := by
  obtain ⟨hne, hall, hv⟩ := formatUint_decimal n
  have hl : ("/api/posts/" ++ formatUint n).toList
      = ['/', 'a', 'p', 'i', '/', 'p', 'o', 's', 't', 's', '/'] ++ (formatUint n).toList := by
    simp only [String.toList, String.data_append]
  have hf : "/api/posts/".toList = ['/', 'a', 'p', 'i', '/', 'p', 'o', 's', 't', 's', '/'] := rfl
  have hadv : advance "/api/posts/".toList ("/api/posts/" ++ formatUint n).toList
      = .ok (formatUint n).toList := by
    rw [hl, hf]
    simp [advance]
  have hskip : SkipSpace (formatUint n).toList = .ok (formatUint n).toList := by
    cases hd : (formatUint n).toList with
    | nil => exact absurd hd hne
    | cons c cs =>
      exact skipSpace_digit c cs (hall c (by rw [hd]; exact List.mem_cons_self _ _))
  have hscan := scanUint_digits (formatUint n).toList hne hall (by rw [hv]; exact hn)
  rw [hv] at hscan
  simp only [Sscanf, hadv, hskip, hscan]

/-! ## Lemmas on the replies -/

/-- An envelope or entity reply on a new recorder: the status, the body and the content type
of the response. -/
theorem json_reply (code : Int) (v : Option JSON) :
    (Encode ((NewRecorder.SetHeader "Content-Type" "application/json").WriteHeader code)
      v).StatusCode = code
    ∧ (Encode ((NewRecorder.SetHeader "Content-Type" "application/json").WriteHeader code)
      v).Body = encoded v
    ∧ (Encode ((NewRecorder.SetHeader "Content-Type" "application/json").WriteHeader code)
      v).ResultHeader "Content-Type" = "application/json" := by
  cases v with
  | none => exact ⟨rfl, rfl, rfl⟩
  | some j => exact ⟨rfl, rfl, rfl⟩

/-- A plain-text reply of `http.Error` on a new recorder. -/
theorem text_reply (msg : String) (code : Int) :
    (httpError NewRecorder msg code).StatusCode = code
    ∧ (httpError NewRecorder msg code).Body = [.bytes (msg ++ "\n")]
    ∧ (httpError NewRecorder msg code).ResultHeader "Content-Type"
      = "text/plain; charset=utf-8" :=
  ⟨rfl, rfl, rfl⟩

theorem addPost_decode_error (decodePost : String → Option Post) (svc : RestApiService)
    (w : ResponseWriter) (r : Request) (hdec : decodePost r.Body = none) :
    handleAddPost decodePost svc w r = (svc, httpError w "400 Bad Request" StatusBadRequest) := by
  simp only [handleAddPost, hdec]

theorem addPost_duplicate (decodePost : String → Option Post) (svc : RestApiService)
    (w : ResponseWriter) (r : Request) (post : Post) (hdec : decodePost r.Body = some post)
    (hm : ∃ x ∈ svc.postRepository.repository.toList, x.Id = post.Id) :
    handleAddPost decodePost svc w r =
      (svc, httpError w (PostAlreadyExistsError.Error { id := post.Id })
        StatusInternalServerError) := by
  simp only [handleAddPost, hdec, post_Insert_of_mem svc.postRepository post hm,
    RepositoryError.Error]

theorem addPost_fresh (decodePost : String → Option Post) (svc : RestApiService)
    (w : ResponseWriter) (r : Request) (post : Post) (hdec : decodePost r.Body = some post)
    (hn : ∀ x ∈ svc.postRepository.repository.toList, x.Id ≠ post.Id) :
    handleAddPost decodePost svc w r =
      ({ svc with postRepository :=
          { repository := .mk (svc.postRepository.repository.toList ++ [post]) } },
        (w.SetHeader "Content-Type" "application/json").Write
          [.value (.object
            [("Message", .string
                ("Post with id: " ++ formatUint post.Id ++ " successfully added")),
              ("Status", .number StatusOK)])]) := by
  simp only [handleAddPost, hdec, post_Insert_of_not_mem svc.postRepository post hn,
    AckJsonResponse.Marshal]

theorem getPost_scan_error (marshalTime : Time → Option String) (svc : RestApiService)
    (w : ResponseWriter) (r : Request) (e : ScanError) (hs : Sscanf r.Path = .error e) :
    handleGetPostByPostId marshalTime svc w r =
      (svc, Encode ((w.SetHeader "Content-Type" "application/json").WriteHeader StatusBadRequest)
        (AckJsonResponse.Marshal
          { Message := "Wrong id path variable: " ++ r.Path, Status := StatusBadRequest })) := by
  simp only [handleGetPostByPostId, hs]

theorem getPost_not_found (marshalTime : Time → Option String) (svc : RestApiService)
    (w : ResponseWriter) (r : Request) (postId : Nat) (hs : Sscanf r.Path = .ok postId)
    (hn : ∀ x ∈ svc.postRepository.repository.toList, x.Id ≠ postId) :
    handleGetPostByPostId marshalTime svc w r =
      (svc, Encode ((w.SetHeader "Content-Type" "application/json").WriteHeader StatusNotFound)
        (AckJsonResponse.Marshal
          { Message := "Post with id: " ++ formatUint postId ++ " does not exist",
            Status := StatusNotFound })) := by
  simp only [handleGetPostByPostId, hs, post_GetById_of_not_mem svc.postRepository postId hn]

theorem getPost_found (marshalTime : Time → Option String) (svc : RestApiService)
    (w : ResponseWriter) (r : Request) (postId : Nat) (post : Post)
    (hs : Sscanf r.Path = .ok postId)
    (hf : PostRepository.scan postId svc.postRepository.repository.toList = some post) :
    handleGetPostByPostId marshalTime svc w r =
      (svc, Encode ((w.SetHeader "Content-Type" "application/json").WriteHeader StatusOK)
        (marshalPost marshalTime post)) := by
  simp only [handleGetPostByPostId, hs, PostRepository.GetById, hf, marshalPostPtr]

theorem getComments_missing (marshalTime : Time → Option String) (svc : RestApiService)
    (w : ResponseWriter) (r : Request) (h : Values.Get r.Query "postId" = "") :
    handleGetCommentsByPostId marshalTime svc w r =
      (svc, Encode ((w.SetHeader "Content-Type" "application/json").WriteHeader StatusBadRequest)
        (AckJsonResponse.Marshal
          { Message := "Wrong id path variable: postId is missing",
            Status := StatusBadRequest })) := by
  simp only [handleGetCommentsByPostId, h, beq_self_eq_true, if_true]

theorem getComments_unparsed (marshalTime : Time → Option String) (svc : RestApiService)
    (w : ResponseWriter) (r : Request) (e : NumError)
    (hne : Values.Get r.Query "postId" ≠ "")
    (hp : ParseUint (Values.Get r.Query "postId") = .error e) :
    handleGetCommentsByPostId marshalTime svc w r =
      (svc, Encode ((w.SetHeader "Content-Type" "application/json").WriteHeader StatusBadRequest)
        (AckJsonResponse.Marshal
          { Message := "Wrong id path variable: " ++ Values.Get r.Query "postId",
            Status := StatusBadRequest })) := by
  have hb : (Values.Get r.Query "postId" == "") = false := by simpa using hne
  simp only [handleGetCommentsByPostId, hb, Bool.false_eq_true, if_false, hp]

theorem getComments_parsed (marshalTime : Time → Option String) (svc : RestApiService)
    (w : ResponseWriter) (r : Request) (p : Nat)
    (hp : ParseUint (Values.Get r.Query "postId") = .ok p) :
    handleGetCommentsByPostId marshalTime svc w r =
      (svc, Encode ((w.SetHeader "Content-Type" "application/json").WriteHeader StatusOK)
        (marshalComments marshalTime (svc.commentRepository.GetAllByPostId p))) := by
  have hb : (Values.Get r.Query "postId" == "") = false := by
    cases hb : (Values.Get r.Query "postId" == "") with
    | false => rfl
    | true =>
      have he : Values.Get r.Query "postId" = "" := by simpa using hb
      have hempty : ParseUint "" = .error .ErrSyntax := rfl
      rw [he, hempty] at hp
      cases hp
  simp only [handleGetCommentsByPostId, hb, Bool.false_eq_true, if_false, hp]

/-! ## Create Post and Get Post By Id handlers -/

/-- C11, as stated, fails by the line end: on the service that stores `validPost`, posting
`validPost` again is answered with the text of the already-exists error followed by a newline,
which is not the bare text of that error. -/
theorem handleAddPost_duplicate_body_has_newline :
    ¬ ((handleAddPost sampleDecodePost onePostService NewRecorder (postPost validPostBody)).2.Body
      = [.bytes (PostAlreadyExistsError.Error { id := 34 })]) := by
  have hb : (handleAddPost sampleDecodePost onePostService NewRecorder
      (postPost validPostBody)).2.Body = [.bytes "Post with id: 34 does not exist\n"] := rfl
  rw [hb]
  intro h
  injection h with h1 _
  injection h1 with h2
  exact absurd h2 (by decide)

/-- C11, amended: for every service state and every body that decodes to a post whose `Id` is
the `Id` of a stored post, the Create Post handler answers with status 500, content type
`text/plain; charset=utf-8` and a body that is the message of the Post repository's
already-exists error for that id followed by a newline, and leaves the service, the post
collection included, as it was. -/
theorem handleAddPost_duplicate (decodePost : String → Option Post) (svc : RestApiService)
    (r : Request) (post : Post) (hdec : decodePost r.Body = some post)
    (hm : ∃ x ∈ svc.postRepository.repository.toList, x.Id = post.Id) :
    (handleAddPost decodePost svc NewRecorder r).2.StatusCode = 500
    ∧ (handleAddPost decodePost svc NewRecorder r).2.Body
      = [.bytes ((RepositoryError.postAlreadyExists { id := post.Id }).Error ++ "\n")]
    ∧ (handleAddPost decodePost svc NewRecorder r).2.ResultHeader "Content-Type"
      = "text/plain; charset=utf-8"
    ∧ (handleAddPost decodePost svc NewRecorder r).1 = svc := by
  rw [addPost_duplicate decodePost svc NewRecorder r post hdec hm]
  exact ⟨rfl, rfl, rfl, rfl⟩

/-- Witness for C11: `validPost` posted to the service that stores it. -/
theorem handleAddPost_duplicate_witness :
    sampleDecodePost (postPost validPostBody).Body = some validPost
    ∧ (∃ x ∈ onePostService.postRepository.repository.toList, x.Id = validPost.Id)
    ∧ (handleAddPost sampleDecodePost onePostService NewRecorder
        (postPost validPostBody)).2.StatusCode = 500
    ∧ (handleAddPost sampleDecodePost onePostService NewRecorder (postPost validPostBody)).2.Body
      = [.bytes ((RepositoryError.postAlreadyExists { id := 34 }).Error ++ "\n")]
    ∧ (handleAddPost sampleDecodePost onePostService NewRecorder (postPost validPostBody)).1
      = onePostService :=
  ⟨by decide, by decide,
    (handleAddPost_duplicate sampleDecodePost onePostService (postPost validPostBody) validPost
      (by decide) (by decide)).1,
    (handleAddPost_duplicate sampleDecodePost onePostService (postPost validPostBody) validPost
      (by decide) (by decide)).2.1,
    (handleAddPost_duplicate sampleDecodePost onePostService (postPost validPostBody) validPost
      (by decide) (by decide)).2.2.2⟩

/-- C12, as the code behaves: the path `/api/posts/34abc` is not `/api/posts/` followed by a
base-10 unsigned integer, yet `Sscanf` reads 34 from it and ignores the rest; the handler then
answers 200 with the stored post 34 on the service that stores it, and 404 with the
not-found envelope on the new service, in neither case 400 with the wrong-path envelope. -/
theorem getPost_trailing_text_accepted (marshalTime : Time → Option String) :
    isDecimalUint64 "34abc" = false
    ∧ Sscanf "/api/posts/34abc" = .ok 34
    ∧ (handleGetPostByPostId marshalTime onePostService NewRecorder
        (getPost "/api/posts/34abc")).2.StatusCode = 200
    ∧ (handleGetPostByPostId marshalTime onePostService NewRecorder
        (getPost "/api/posts/34abc")).2.Body = encoded (marshalPost marshalTime validPost)
    ∧ (handleGetPostByPostId marshalTime NewRestApiService NewRecorder
        (getPost "/api/posts/34abc")).2.StatusCode = 404
    ∧ (handleGetPostByPostId marshalTime NewRestApiService NewRecorder
        (getPost "/api/posts/34abc")).2.Body
      = [.value (.object
          [("Message", .string "Post with id: 34 does not exist"), ("Status", .number 404)]),
          .bytes "\n"] := by
  have h1 := getPost_found marshalTime onePostService NewRecorder (getPost "/api/posts/34abc")
    34 validPost rfl rfl
  have h2 := getPost_not_found marshalTime NewRestApiService NewRecorder
    (getPost "/api/posts/34abc") 34 rfl (by decide)
  rw [h1, h2]
  exact ⟨by decide, rfl, (json_reply StatusOK _).1, (json_reply StatusOK _).2.1, rfl, rfl⟩

/-- C13: for every service state and every request whose path is `/api/posts/` followed by the
decimal form of an unsigned 64-bit integer `n`: when a post with `Id` `n` is stored, the Get
Post By Id handler answers with status 200 and the body the encoder writes for the first stored
post with that `Id`, which is the JSON object of its four fields, not an envelope, once its
timestamp is written; when none is stored, it answers with status 404 and the envelope with
message "Post with id: <n> does not exist" and status 404; so the status is 200 exactly when
such a post is stored. -/
theorem handleGetPostByPostId_contract (marshalTime : Time → Option String)
    (svc : RestApiService) (r : Request) (n : Nat) (hn : n < 2 ^ 64)
    (hpath : r.Path = "/api/posts/" ++ formatUint n) :
    ((∃ x ∈ svc.postRepository.repository.toList, x.Id = n) →
      ∃ post pre rest, svc.postRepository.repository.toList = pre ++ post :: rest
        ∧ post.Id = n ∧ (∀ x ∈ pre, x.Id ≠ n)
        ∧ (handleGetPostByPostId marshalTime svc NewRecorder r).2.StatusCode = 200
        ∧ (handleGetPostByPostId marshalTime svc NewRecorder r).2.Body
          = encoded (marshalPost marshalTime post)
        ∧ ∀ t, marshalTime post.CreationDate = some t →
          (handleGetPostByPostId marshalTime svc NewRecorder r).2.Body
            = [.value (.object [("Id", .number post.Id), ("Title", .string post.Title),
                ("Content", .string post.Content), ("CreationDate", .string t)]),
              .bytes "\n"])
    ∧ ((∀ x ∈ svc.postRepository.repository.toList, x.Id ≠ n) →
      (handleGetPostByPostId marshalTime svc NewRecorder r).2.StatusCode = 404
      ∧ (handleGetPostByPostId marshalTime svc NewRecorder r).2.Body
        = [.value (.object
            [("Message", .string ("Post with id: " ++ formatUint n ++ " does not exist")),
              ("Status", .number 404)]),
            .bytes "\n"])
    ∧ ((handleGetPostByPostId marshalTime svc NewRecorder r).2.StatusCode = 200
      ↔ ∃ x ∈ svc.postRepository.repository.toList, x.Id = n) := by
  have hs : Sscanf r.Path = .ok n := by
    rw [hpath]
    exact sscanf_canonical n hn
  have hfound : (∃ x ∈ svc.postRepository.repository.toList, x.Id = n) →
      ∃ post, PostRepository.scan n svc.postRepository.repository.toList = some post := by
    intro hm
    obtain ⟨e, _, he⟩ := post_GetById_of_mem svc.postRepository n hm
    exact ⟨e, he⟩
  refine ⟨?_, ?_, ?_⟩
  · intro hm
    obtain ⟨post, hf⟩ := hfound hm
    obtain ⟨pre, rest, hl, hid, hpre⟩ := (post_scan_eq_some n _ post).1 hf
    rw [getPost_found marshalTime svc NewRecorder r n post hs hf]
    refine ⟨post, pre, rest, hl, hid, hpre, (json_reply StatusOK _).1,
      (json_reply StatusOK _).2.1, ?_⟩
    intro t ht
    rw [(json_reply StatusOK _).2.1]
    simp only [marshalPost, ht, encoded]
  · intro hnm
    rw [getPost_not_found marshalTime svc NewRecorder r n hs hnm]
    exact ⟨rfl, rfl⟩
  · constructor
    · intro h200
      by_contra hne
      have hnm : ∀ x ∈ svc.postRepository.repository.toList, x.Id ≠ n :=
        fun x hx hid => hne ⟨x, hx, hid⟩
      rw [getPost_not_found marshalTime svc NewRecorder r n hs hnm] at h200
      have h404 := (json_reply StatusNotFound (AckJsonResponse.Marshal
        { Message := "Post with id: " ++ formatUint n ++ " does not exist",
          Status := StatusNotFound })).1
      rw [h404] at h200
      exact absurd h200 (by decide)
    · intro hm
      obtain ⟨post, hf⟩ := hfound hm
      rw [getPost_found marshalTime svc NewRecorder r n post hs hf]
      exact (json_reply StatusOK _).1

/-- Witness for C13: `GET /api/posts/34` on the service that stores `validPost`, and on the
new service. -/
theorem handleGetPostByPostId_contract_witness :
    ((34 : Nat) < 2 ^ 64 ∧ (getPost "/api/posts/34").Path = "/api/posts/" ++ formatUint 34
      ∧ (∃ x ∈ onePostService.postRepository.repository.toList, x.Id = 34)
      ∧ (handleGetPostByPostId sampleMarshalTime onePostService NewRecorder
          (getPost "/api/posts/34")).2.StatusCode = 200)
    ∧ ((∀ x ∈ NewRestApiService.postRepository.repository.toList, x.Id ≠ 34)
      ∧ (handleGetPostByPostId sampleMarshalTime NewRestApiService NewRecorder
          (getPost "/api/posts/34")).2.StatusCode = 404) :=
  ⟨⟨by norm_num, by decide, by decide,
      (handleGetPostByPostId_contract sampleMarshalTime onePostService (getPost "/api/posts/34")
        34 (by norm_num) (by decide)).2.2.2 (by decide)⟩,
    ⟨by decide,
      ((handleGetPostByPostId_contract sampleMarshalTime NewRestApiService
        (getPost "/api/posts/34") 34 (by norm_num) (by decide)).2.1 (by decide)).1⟩⟩

/-- C14: for every service state and every body that decodes to a post whose `Id` is the `Id`
of no stored post, the Create Post handler answers with status 200, content type
`application/json` and the envelope with message "Post with id: <id> successfully added" and
status 200; the post collection afterwards is the one before followed by that post. -/
theorem handleAddPost_success (decodePost : String → Option Post) (svc : RestApiService)
    (r : Request) (post : Post) (hdec : decodePost r.Body = some post)
    (hfresh : ∀ x ∈ svc.postRepository.repository.toList, x.Id ≠ post.Id) :
    (handleAddPost decodePost svc NewRecorder r).2.StatusCode = 200
    ∧ (handleAddPost decodePost svc NewRecorder r).2.ResultHeader "Content-Type"
      = "application/json"
    ∧ (handleAddPost decodePost svc NewRecorder r).2.Body
      = [.value (.object
          [("Message", .string
              ("Post with id: " ++ formatUint post.Id ++ " successfully added")),
            ("Status", .number 200)])]
    ∧ (handleAddPost decodePost svc NewRecorder r).1.postRepository.repository.toList
      = svc.postRepository.repository.toList ++ [post]
    ∧ (handleAddPost decodePost svc NewRecorder r).1.commentRepository
      = svc.commentRepository := by
  rw [addPost_fresh decodePost svc NewRecorder r post hdec hfresh]
  exact ⟨rfl, rfl, rfl, rfl, rfl⟩

/-- Witness for C14: the post of the service tests posted to the new service. -/
theorem handleAddPost_success_witness :
    sampleDecodePost (postPost validPostBody).Body = some validPost
    ∧ (∀ x ∈ NewRestApiService.postRepository.repository.toList, x.Id ≠ validPost.Id)
    ∧ (handleAddPost sampleDecodePost NewRestApiService NewRecorder
        (postPost validPostBody)).2.StatusCode = 200
    ∧ (handleAddPost sampleDecodePost NewRestApiService NewRecorder
        (postPost validPostBody)).2.Body
      = [.value (.object
          [("Message", .string "Post with id: 34 successfully added"),
            ("Status", .number 200)])]
    ∧ (handleAddPost sampleDecodePost NewRestApiService NewRecorder
        (postPost validPostBody)).1.postRepository.repository.toList = [validPost] :=
  ⟨by decide, by decide,
    (handleAddPost_success sampleDecodePost NewRestApiService (postPost validPostBody) validPost
      (by decide) (by decide)).1,
    (handleAddPost_success sampleDecodePost NewRestApiService (postPost validPostBody) validPost
      (by decide) (by decide)).2.2.1,
    (handleAddPost_success sampleDecodePost NewRestApiService (postPost validPostBody) validPost
      (by decide) (by decide)).2.2.2.1⟩

/-! ## Shapes of the replies and of the state changes -/

/-- Every reply of the Create Comment handler on a new recorder is a JSON reply with status
200 or 400. -/
theorem addComment_reply (decodeComment : String → Option Comment) (svc : RestApiService)
    (r : Request) :
    ∃ code v, (code = 200 ∨ code = 400)
      ∧ (handleAddComment decodeComment svc NewRecorder r).2
        = Encode ((NewRecorder.SetHeader "Content-Type" "application/json").WriteHeader code)
            v := by
  cases hdec : decodeComment r.Body with
  | none =>
    rw [addComment_decode_error decodeComment svc NewRecorder r hdec]
    dsimp only
    exact ⟨StatusBadRequest, _, Or.inr rfl, rfl⟩
  | some comment =>
    cases hc : incomplete comment with
    | true =>
      rw [addComment_incomplete decodeComment svc NewRecorder r comment hdec hc]
      dsimp only
      exact ⟨StatusBadRequest, _, Or.inr rfl, rfl⟩
    | false =>
      by_cases hm : ∃ x ∈ svc.commentRepository.repository.toList, x.Id = comment.Id
      · rw [addComment_duplicate decodeComment svc NewRecorder r comment hdec hc hm]
        dsimp only
        exact ⟨StatusBadRequest, _, Or.inr rfl, rfl⟩
      · have hn : ∀ x ∈ svc.commentRepository.repository.toList, x.Id ≠ comment.Id :=
          fun x hx hid => hm ⟨x, hx, hid⟩
        rw [addComment_fresh decodeComment svc NewRecorder r comment hdec hc hn]
        dsimp only
        exact ⟨StatusOK, _, Or.inl rfl, rfl⟩

/-- Every reply of the Get Post By Id handler on a new recorder is a JSON reply. -/
theorem getPost_reply (marshalTime : Time → Option String) (svc : RestApiService)
    (r : Request) :
    ∃ code v, (handleGetPostByPostId marshalTime svc NewRecorder r).2
        = Encode ((NewRecorder.SetHeader "Content-Type" "application/json").WriteHeader code)
            v := by
  cases hs : Sscanf r.Path with
  | error e =>
    rw [getPost_scan_error marshalTime svc NewRecorder r e hs]
    dsimp only
    exact ⟨_, _, rfl⟩
  | ok postId =>
    by_cases hm : ∃ x ∈ svc.postRepository.repository.toList, x.Id = postId
    · obtain ⟨post, _, hf⟩ := post_GetById_of_mem svc.postRepository postId hm
      rw [getPost_found marshalTime svc NewRecorder r postId post hs hf]
      dsimp only
      exact ⟨_, _, rfl⟩
    · have hn : ∀ x ∈ svc.postRepository.repository.toList, x.Id ≠ postId :=
        fun x hx hid => hm ⟨x, hx, hid⟩
      rw [getPost_not_found marshalTime svc NewRecorder r postId hs hn]
      dsimp only
      exact ⟨_, _, rfl⟩

/-- Every reply of the Get Comments By Post Id handler on a new recorder is a JSON reply. -/
theorem getComments_reply (marshalTime : Time → Option String) (svc : RestApiService)
    (r : Request) :
    ∃ code v, (handleGetCommentsByPostId marshalTime svc NewRecorder r).2
        = Encode ((NewRecorder.SetHeader "Content-Type" "application/json").WriteHeader code)
            v := by
  by_cases he : Values.Get r.Query "postId" = ""
  · rw [getComments_missing marshalTime svc NewRecorder r he]
    dsimp only
    exact ⟨_, _, rfl⟩
  · cases hp : ParseUint (Values.Get r.Query "postId") with
    | error e =>
      rw [getComments_unparsed marshalTime svc NewRecorder r e he hp]
      dsimp only
      exact ⟨_, _, rfl⟩
    | ok p =>
      rw [getComments_parsed marshalTime svc NewRecorder r p hp]
      dsimp only
      exact ⟨_, _, rfl⟩

/-- The Create Post handler leaves the service as it was or appends the decoded post to the
post collection. -/
theorem addPost_state (decodePost : String → Option Post) (svc : RestApiService)
    (w : ResponseWriter) (r : Request) :
    (handleAddPost decodePost svc w r).1 = svc
    ∨ ∃ post, decodePost r.Body = some post
        ∧ (handleAddPost decodePost svc w r).1 =
          { svc with postRepository :=
              { repository := .mk (svc.postRepository.repository.toList ++ [post]) } } := by
  cases hdec : decodePost r.Body with
  | none =>
    rw [addPost_decode_error decodePost svc w r hdec]
    exact Or.inl rfl
  | some post =>
    by_cases hm : ∃ x ∈ svc.postRepository.repository.toList, x.Id = post.Id
    · rw [addPost_duplicate decodePost svc w r post hdec hm]
      exact Or.inl rfl
    · have hn : ∀ x ∈ svc.postRepository.repository.toList, x.Id ≠ post.Id :=
        fun x hx hid => hm ⟨x, hx, hid⟩
      rw [addPost_fresh decodePost svc w r post hdec hn]
      exact Or.inr ⟨post, rfl, rfl⟩

/-- The Create Comment handler leaves the service as it was or appends the decoded comment to
the comment collection. -/
theorem addComment_state (decodeComment : String → Option Comment) (svc : RestApiService)
    (w : ResponseWriter) (r : Request) :
    (handleAddComment decodeComment svc w r).1 = svc
    ∨ ∃ comment, decodeComment r.Body = some comment
        ∧ (handleAddComment decodeComment svc w r).1 =
          { svc with commentRepository :=
              { repository := .mk (svc.commentRepository.repository.toList ++ [comment]) } } := by
  cases hdec : decodeComment r.Body with
  | none =>
    rw [addComment_decode_error decodeComment svc w r hdec]
    exact Or.inl rfl
  | some comment =>
    cases hc : incomplete comment with
    | true =>
      rw [addComment_incomplete decodeComment svc w r comment hdec hc]
      exact Or.inl rfl
    | false =>
      by_cases hm : ∃ x ∈ svc.commentRepository.repository.toList, x.Id = comment.Id
      · rw [addComment_duplicate decodeComment svc w r comment hdec hc hm]
        exact Or.inl rfl
      · have hn : ∀ x ∈ svc.commentRepository.repository.toList, x.Id ≠ comment.Id :=
          fun x hx hid => hm ⟨x, hx, hid⟩
        rw [addComment_fresh decodeComment svc w r comment hdec hc hn]
        exact Or.inr ⟨comment, rfl, rfl⟩

theorem getPost_state (marshalTime : Time → Option String) (svc : RestApiService)
    (w : ResponseWriter) (r : Request) :
    (handleGetPostByPostId marshalTime svc w r).1 = svc := by
  cases hs : Sscanf r.Path with
  | error e => rw [getPost_scan_error marshalTime svc w r e hs]
  | ok postId =>
    by_cases hm : ∃ x ∈ svc.postRepository.repository.toList, x.Id = postId
    · obtain ⟨post, _, hf⟩ := post_GetById_of_mem svc.postRepository postId hm
      rw [getPost_found marshalTime svc w r postId post hs hf]
    · have hn : ∀ x ∈ svc.postRepository.repository.toList, x.Id ≠ postId :=
        fun x hx hid => hm ⟨x, hx, hid⟩
      rw [getPost_not_found marshalTime svc w r postId hs hn]

theorem getComments_state (marshalTime : Time → Option String) (svc : RestApiService)
    (w : ResponseWriter) (r : Request) :
    (handleGetCommentsByPostId marshalTime svc w r).1 = svc := by
  by_cases he : Values.Get r.Query "postId" = ""
  · rw [getComments_missing marshalTime svc w r he]
  · cases hp : ParseUint (Values.Get r.Query "postId") with
    | error e => rw [getComments_unparsed marshalTime svc w r e he hp]
    | ok p => rw [getComments_parsed marshalTime svc w r p hp]

theorem values_get_absent (q : Values) (key : String) (h : ∀ kv ∈ q, kv.1 ≠ key) :
    Values.Get q key = "" := by
  have hf : q.find? (fun kv => kv.1 == key) = none := by
    rw [List.find?_eq_none]
    intro kv hkv
    simpa using h kv hkv
  simp only [Values.Get, hf]

/-! ## Get Comments By Post Id handler -/

/-- C15, as the code behaves: on the new service, which stores no comment, the request
`GET /api/comments?postId=3` is answered with status 200 and the JSON text `null`, which is
not the JSON array of the (zero) stored comments with `PostId` 3; on the three-comment service
the request `GET /api/comments?postId=101` is answered with the array of `comment1` and
`comment2`, in that order. -/
theorem getComments_empty_result_is_null (marshalTime : Time → Option String) :
    ParseUint "3" = .ok 3
    ∧ (∀ x ∈ NewRestApiService.commentRepository.repository.toList, x.PostId ≠ 3)
    ∧ (handleGetCommentsByPostId marshalTime NewRestApiService NewRecorder
        (getComments [("postId", ["3"])])).2.StatusCode = 200
    ∧ (handleGetCommentsByPostId marshalTime NewRestApiService NewRecorder
        (getComments [("postId", ["3"])])).2.Body = [.value .null, .bytes "\n"]
    ∧ (handleGetCommentsByPostId marshalTime NewRestApiService NewRecorder
        (getComments [("postId", ["3"])])).2.Body ≠ [.value (.array []), .bytes "\n"]
    ∧ (handleGetCommentsByPostId sampleMarshalTime sampleService NewRecorder
        (getComments [("postId", ["101"])])).2.Body
      = encoded (marshalComments sampleMarshalTime (.mk [comment1, comment2])) := by
  have h : (handleGetCommentsByPostId marshalTime NewRestApiService NewRecorder
      (getComments [("postId", ["3"])])).2.Body = [.value .null, .bytes "\n"] := rfl
  refine ⟨rfl, by decide, rfl, h, ?_, rfl⟩
  rw [h]
  intro hc
  injection hc with hhead _
  injection hhead with hv
  exact JSON.noConfusion hv

/-- C16: a request to the Get Comments By Post Id handler that gives no `postId` value, or an
empty one, is answered with status 400 and the envelope with message "Wrong id path variable:
postId is missing" and status 400; a request whose `postId` value is not empty and is not a
base-10 unsigned 64-bit integer is answered with status 400 and the envelope with message
"Wrong id path variable: <raw value>" and status 400; in both cases the body is that envelope
alone and the service is left as it was. -/
theorem handleGetCommentsByPostId_bad_id :
    (∀ (marshalTime : Time → Option String) (svc : RestApiService) (r : Request),
      ((∀ kv ∈ r.Query, kv.1 ≠ "postId") ∨ Values.Get r.Query "postId" = "") →
      (handleGetCommentsByPostId marshalTime svc NewRecorder r).2.StatusCode = 400
      ∧ (handleGetCommentsByPostId marshalTime svc NewRecorder r).2.Body
        = [.value (.object
            [("Message", .string "Wrong id path variable: postId is missing"),
              ("Status", .number 400)]),
            .bytes "\n"]
      ∧ (handleGetCommentsByPostId marshalTime svc NewRecorder r).1 = svc)
    ∧ (∀ (marshalTime : Time → Option String) (svc : RestApiService) (r : Request),
      Values.Get r.Query "postId" ≠ "" →
      isDecimalUint64 (Values.Get r.Query "postId") = false →
      (handleGetCommentsByPostId marshalTime svc NewRecorder r).2.StatusCode = 400
      ∧ (handleGetCommentsByPostId marshalTime svc NewRecorder r).2.Body
        = [.value (.object
            [("Message", .string ("Wrong id path variable: " ++ Values.Get r.Query "postId")),
              ("Status", .number 400)]),
            .bytes "\n"]
      ∧ (handleGetCommentsByPostId marshalTime svc NewRecorder r).1 = svc) := by
  constructor
  · intro marshalTime svc r h
    have he : Values.Get r.Query "postId" = "" := by
      rcases h with h | h
      · exact values_get_absent r.Query "postId" h
      · exact h
    rw [getComments_missing marshalTime svc NewRecorder r he]
    exact ⟨rfl, rfl, rfl⟩
  · intro marshalTime svc r hne hnd
    obtain ⟨e, he⟩ := parseUint_error_of_not_decimal _ hnd
    rw [getComments_unparsed marshalTime svc NewRecorder r e hne he]
    exact ⟨rfl, rfl, rfl⟩

/-- Witness for C16: a request without query, and the values `+5`, `12abc` and `2^64`. -/
theorem handleGetCommentsByPostId_bad_id_witness :
    ((∀ kv ∈ (getComments []).Query, kv.1 ≠ "postId")
      ∧ (handleGetCommentsByPostId sampleMarshalTime sampleService NewRecorder
          (getComments [])).2.StatusCode = 400)
    ∧ (Values.Get (getComments [("postId", ["+5"])]).Query "postId" ≠ ""
      ∧ isDecimalUint64 (Values.Get (getComments [("postId", ["+5"])]).Query "postId") = false
      ∧ (handleGetCommentsByPostId sampleMarshalTime sampleService NewRecorder
          (getComments [("postId", ["+5"])])).2.Body
        = [.value (.object
            [("Message", .string "Wrong id path variable: +5"), ("Status", .number 400)]),
            .bytes "\n"])
    ∧ (isDecimalUint64 (Values.Get (getComments [("postId", ["12abc"])]).Query "postId") = false
      ∧ (handleGetCommentsByPostId sampleMarshalTime sampleService NewRecorder
          (getComments [("postId", ["12abc"])])).2.StatusCode = 400)
    ∧ (isDecimalUint64
          (Values.Get (getComments [("postId", ["18446744073709551616"])]).Query "postId") = false
      ∧ (handleGetCommentsByPostId sampleMarshalTime sampleService NewRecorder
          (getComments [("postId", ["18446744073709551616"])])).2.StatusCode = 400) :=
  ⟨⟨by decide,
      (handleGetCommentsByPostId_bad_id.1 sampleMarshalTime sampleService (getComments [])
        (Or.inl (by decide))).1⟩,
    ⟨by decide, by decide,
      (handleGetCommentsByPostId_bad_id.2 sampleMarshalTime sampleService
        (getComments [("postId", ["+5"])]) (by decide) (by decide)).2.1⟩,
    ⟨by decide,
      (handleGetCommentsByPostId_bad_id.2 sampleMarshalTime sampleService
        (getComments [("postId", ["12abc"])]) (by decide) (by decide)).1⟩,
    ⟨by decide,
      (handleGetCommentsByPostId_bad_id.2 sampleMarshalTime sampleService
        (getComments [("postId", ["18446744073709551616"])]) (by decide) (by decide)).1⟩⟩

/-! ## Invariants of the service -/

/-- C17, as the code behaves: the Create Post handler checks no field of the decoded post.
One request whose body gives no `Id` is answered with status 200 and puts a post with `Id` 0
into the post collection of the new service, so that not every stored post has a non-zero
`Id`; the Create Comment handler answers a body that gives no `Id` with status 400 and stores
nothing. -/
theorem addPost_stores_zero_id :
    sampleDecodePost (postPost noIdPostBody).Body = some noIdPost
    ∧ noIdPost.Id = 0
    ∧ (handleAddPost sampleDecodePost NewRestApiService NewRecorder
        (postPost noIdPostBody)).2.StatusCode = 200
    ∧ (runAddPost sampleDecodePost NewRestApiService
        [postPost noIdPostBody]).postRepository.repository.toList = [noIdPost]
    ∧ ¬ (∀ e ∈ (runAddPost sampleDecodePost NewRestApiService
        [postPost noIdPostBody]).postRepository.repository.toList, e.Id ≠ 0)
    ∧ sampleDecode (postComment weirdBody).Body = some zeroComment
    ∧ (handleAddComment sampleDecode NewRestApiService NewRecorder
        (postComment weirdBody)).2.StatusCode = 400
    ∧ (handleAddComment sampleDecode NewRestApiService NewRecorder (postComment weirdBody)).1
      = NewRestApiService := by
  have hl : (runAddPost sampleDecodePost NewRestApiService
      [postPost noIdPostBody]).postRepository.repository.toList = [noIdPost] := rfl
  refine ⟨by decide, rfl, rfl, hl, ?_, by decide, rfl, rfl⟩
  intro h
  rw [hl] at h
  exact h noIdPost (List.mem_singleton.2 rfl) rfl

/-- C18: stored entities are never changed or removed. `Insert` of either repository, on every
argument, leaves the collection before it as a prefix of the collection after it; so does each
of the four handlers, on every writer and request, for both collections; the two GET handlers
return the service exactly as it was; the Create Post handler returns the comment repository
as it was and the Create Comment handler the post repository as it was. (`GetById` and
`GetAllByPostId` assign nothing, which is why they are functions of the repository that return
a result and no repository.) -/
theorem collections_only_grow :
    (∀ (c : CommentRepository) (e : Comment),
      List.IsPrefix c.repository.toList (c.Insert e).1.repository.toList)
    ∧ (∀ (c : PostRepository) (e : Post),
      List.IsPrefix c.repository.toList (c.Insert e).1.repository.toList)
    ∧ (∀ (decodePost : String → Option Post) (svc : RestApiService) (w : ResponseWriter)
        (r : Request),
      List.IsPrefix svc.postRepository.repository.toList
        (handleAddPost decodePost svc w r).1.postRepository.repository.toList
      ∧ (handleAddPost decodePost svc w r).1.commentRepository = svc.commentRepository)
    ∧ (∀ (decodeComment : String → Option Comment) (svc : RestApiService) (w : ResponseWriter)
        (r : Request),
      List.IsPrefix svc.commentRepository.repository.toList
        (handleAddComment decodeComment svc w r).1.commentRepository.repository.toList
      ∧ (handleAddComment decodeComment svc w r).1.postRepository = svc.postRepository)
    ∧ (∀ (marshalTime : Time → Option String) (svc : RestApiService) (w : ResponseWriter)
        (r : Request), (handleGetPostByPostId marshalTime svc w r).1 = svc)
    ∧ (∀ (marshalTime : Time → Option String) (svc : RestApiService) (w : ResponseWriter)
        (r : Request), (handleGetCommentsByPostId marshalTime svc w r).1 = svc) := by
  refine ⟨?_, ?_, ?_, ?_, getPost_state, getComments_state⟩
  · intro c e
    by_cases hm : ∃ x ∈ c.repository.toList, x.Id = e.Id
    · rw [comment_Insert_of_mem c e hm]
    · rw [comment_Insert_of_not_mem c e (fun x hx hid => hm ⟨x, hx, hid⟩)]
      exact List.prefix_append _ _
  · intro c e
    by_cases hm : ∃ x ∈ c.repository.toList, x.Id = e.Id
    · rw [post_Insert_of_mem c e hm]
    · rw [post_Insert_of_not_mem c e (fun x hx hid => hm ⟨x, hx, hid⟩)]
      exact List.prefix_append _ _
  · intro decodePost svc w r
    rcases addPost_state decodePost svc w r with h | ⟨post, _, h⟩
    · rw [h]
      exact ⟨List.prefix_refl _, rfl⟩
    · rw [h]
      exact ⟨List.prefix_append _ _, rfl⟩
  · intro decodeComment svc w r
    rcases addComment_state decodeComment svc w r with h | ⟨comment, _, h⟩
    · rw [h]
      exact ⟨List.prefix_refl _, rfl⟩
    · rw [h]
      exact ⟨List.prefix_append _ _, rfl⟩

/-- C19: for every service state and every request, answered with an error or not, the
response of the Get Post By Id handler, of the Get Comments By Post Id handler and of the
Create Comment handler carries the header `Content-Type: application/json`. -/
theorem content_type_json (marshalTime : Time → Option String)
    (decodeComment : String → Option Comment) (svc : RestApiService) (r : Request) :
    (handleGetPostByPostId marshalTime svc NewRecorder r).2.ResultHeader "Content-Type"
      = "application/json"
    ∧ (handleGetCommentsByPostId marshalTime svc NewRecorder r).2.ResultHeader "Content-Type"
      = "application/json"
    ∧ (handleAddComment decodeComment svc NewRecorder r).2.ResultHeader "Content-Type"
      = "application/json" := by
  obtain ⟨c1, v1, h1⟩ := getPost_reply marshalTime svc r
  obtain ⟨c2, v2, h2⟩ := getComments_reply marshalTime svc r
  obtain ⟨c3, v3, _, h3⟩ := addComment_reply decodeComment svc r
  rw [h1, h2, h3]
  exact ⟨(json_reply c1 v1).2.2, (json_reply c2 v2).2.2, (json_reply c3 v3).2.2⟩

/-- C20: the Create Comment handler never answers 500. Whenever `GetById` reports an id as
absent, `Insert` of a comment with that id returns no error, so the call of `Insert` the
handler reaches after a successful decode, a passed field check and a failed `GetById`
pre-check succeeds and the answer is 200; and for every service state and request the status
is 200 or 400, never 500. -/
theorem handleAddComment_never_500 :
    (∀ (c : CommentRepository) (comment : Comment), (c.GetById comment.Id).2 ≠ none →
      (c.Insert comment).2 = none)
    ∧ (∀ (decodeComment : String → Option Comment) (svc : RestApiService) (r : Request)
        (comment : Comment), decodeComment r.Body = some comment →
      incomplete comment = false →
      (svc.commentRepository.GetById comment.Id).2 ≠ none →
      (svc.commentRepository.Insert comment).2 = none
      ∧ (handleAddComment decodeComment svc NewRecorder r).2.StatusCode = 200)
    ∧ (∀ (decodeComment : String → Option Comment) (svc : RestApiService) (r : Request),
      ((handleAddComment decodeComment svc NewRecorder r).2.StatusCode = 200
        ∨ (handleAddComment decodeComment svc NewRecorder r).2.StatusCode = 400)
      ∧ (handleAddComment decodeComment svc NewRecorder r).2.StatusCode ≠ 500) := by
  have habsent : ∀ (c : CommentRepository) (id : Nat), (c.GetById id).2 ≠ none →
      ∀ x ∈ c.repository.toList, x.Id ≠ id := by
    intro c id h x hx hid
    obtain ⟨e, he, _⟩ := comment_GetById_of_mem c id ⟨x, hx, hid⟩
    rw [he] at h
    exact h rfl
  refine ⟨?_, ?_, ?_⟩
  · intro c comment h
    rw [comment_Insert_of_not_mem c comment (habsent c comment.Id h)]
  · intro decodeComment svc r comment hdec hc h
    have hn := habsent svc.commentRepository comment.Id h
    refine ⟨?_, ?_⟩
    · rw [comment_Insert_of_not_mem svc.commentRepository comment hn]
    · rw [addComment_fresh decodeComment svc NewRecorder r comment hdec hc hn]
      rfl
  · intro decodeComment svc r
    obtain ⟨code, v, hcode, h⟩ := addComment_reply decodeComment svc r
    rw [h, (json_reply code v).1]
    rcases hcode with hcode | hcode
    · rw [hcode]
      exact ⟨Or.inl rfl, by decide⟩
    · rw [hcode]
      exact ⟨Or.inr rfl, by decide⟩

/-- Witness for C20: the valid comment of `TestAddComment` on the three-comment service,
where `GetById` does not find its id. -/
theorem handleAddComment_never_500_witness :
    (threeComments.GetById validComment.Id).2 ≠ none
    ∧ (threeComments.Insert validComment).2 = none
    ∧ sampleDecode (postComment validCommentBody).Body = some validComment
    ∧ incomplete validComment = false
    ∧ (handleAddComment sampleDecode sampleService NewRecorder
        (postComment validCommentBody)).2.StatusCode = 200 :=
  ⟨by decide,
    handleAddComment_never_500.1 threeComments validComment (by decide),
    by decide, by decide,
    (handleAddComment_never_500.2.1 sampleDecode sampleService (postComment validCommentBody)
      validComment (by decide) (by decide) (by decide)).2⟩

/-! ## The envelope and the status line -/

/-- An envelope written by `Encode` after `WriteHeader(code)` on a new recorder, its `Status`
field being `code`: whatever envelope the body carries has the status of the response. -/
theorem envelope_reply_status (code : Int) (msg : String) (m : String) (st : Int)
    (h : carriesEnvelope
      (Encode ((NewRecorder.SetHeader "Content-Type" "application/json").WriteHeader code)
        (AckJsonResponse.Marshal { Message := msg, Status := code })).Body m st) :
    st = (Encode ((NewRecorder.SetHeader "Content-Type" "application/json").WriteHeader code)
        (AckJsonResponse.Marshal { Message := msg, Status := code })).StatusCode := by
  rw [(json_reply code _).1]
  rw [(json_reply code _).2.1] at h
  simp only [carriesEnvelope, envelope, encoded, AckJsonResponse.Marshal] at h
  rcases h with h | h
  · simp at h
  · simp at h
    exact h.2.symm

/-- A stored post written by `Encode` is an object of four fields or nothing: the body carries
no envelope. -/
theorem post_body_no_envelope (marshalTime : Time → Option String) (post : Post) (m : String)
    (st : Int) : ¬ carriesEnvelope (encoded (marshalPost marshalTime post)) m st := by
  intro h
  cases ht : marshalTime post.CreationDate with
  | none =>
    simp [carriesEnvelope, encoded, marshalPost, ht] at h
  | some t =>
    simp [carriesEnvelope, envelope, encoded, marshalPost, ht] at h

/-- A comment list written by `Encode` is `null`, an array or nothing: the body carries no
envelope. -/
theorem comments_body_no_envelope (marshalTime : Time → Option String) (sl : Slice Comment)
    (m : String) (st : Int) :
    ¬ carriesEnvelope (encoded (marshalComments marshalTime sl)) m st := by
  intro h
  cases sl with
  | nil => simp [carriesEnvelope, envelope, encoded, marshalComments] at h
  | mk l =>
    cases hl : marshalElems marshalTime l with
    | none => simp [carriesEnvelope, encoded, marshalComments, hl] at h
    | some js => simp [carriesEnvelope, envelope, encoded, marshalComments, hl] at h

/-- C21: for every service state and every request, whenever the body of the response of the
Create Post, Get Post By Id, Get Comments By Post Id or Create Comment handler carries the
`{Message, Status}` envelope, the `Status` field of that envelope is the HTTP status code of
the response. -/
theorem envelope_status_is_http_status (decodePost : String → Option Post)
    (decodeComment : String → Option Comment) (marshalTime : Time → Option String)
    (svc : RestApiService) (r : Request) (m : String) (st : Int) :
    (carriesEnvelope (handleAddPost decodePost svc NewRecorder r).2.Body m st →
      st = (handleAddPost decodePost svc NewRecorder r).2.StatusCode)
    ∧ (carriesEnvelope (handleGetPostByPostId marshalTime svc NewRecorder r).2.Body m st →
      st = (handleGetPostByPostId marshalTime svc NewRecorder r).2.StatusCode)
    ∧ (carriesEnvelope (handleGetCommentsByPostId marshalTime svc NewRecorder r).2.Body m st →
      st = (handleGetCommentsByPostId marshalTime svc NewRecorder r).2.StatusCode)
    ∧ (carriesEnvelope (handleAddComment decodeComment svc NewRecorder r).2.Body m st →
      st = (handleAddComment decodeComment svc NewRecorder r).2.StatusCode) := by
  refine ⟨?_, ?_, ?_, ?_⟩
  · cases hdec : decodePost r.Body with
    | none =>
      rw [addPost_decode_error decodePost svc NewRecorder r hdec]
      intro h
      simp [carriesEnvelope, (text_reply _ _).2.1] at h
    | some post =>
      by_cases hm : ∃ x ∈ svc.postRepository.repository.toList, x.Id = post.Id
      · rw [addPost_duplicate decodePost svc NewRecorder r post hdec hm]
        intro h
        simp [carriesEnvelope, (text_reply _ _).2.1] at h
      · have hn : ∀ x ∈ svc.postRepository.repository.toList, x.Id ≠ post.Id :=
          fun x hx hid => hm ⟨x, hx, hid⟩
        rw [addPost_fresh decodePost svc NewRecorder r post hdec hn]
        intro h
        have hb : ((NewRecorder.SetHeader "Content-Type" "application/json").Write
            [.value (.object
              [("Message", .string
                  ("Post with id: " ++ formatUint post.Id ++ " successfully added")),
                ("Status", .number StatusOK)])]).Body
            = [.value (.object
              [("Message", .string
                  ("Post with id: " ++ formatUint post.Id ++ " successfully added")),
                ("Status", .number StatusOK)])] := rfl
        have hc : ((NewRecorder.SetHeader "Content-Type" "application/json").Write
            [.value (.object
              [("Message", .string
                  ("Post with id: " ++ formatUint post.Id ++ " successfully added")),
                ("Status", .number StatusOK)])]).StatusCode = StatusOK := rfl
        dsimp only at h ⊢
        rw [hc]
        rw [hb] at h
        simp only [carriesEnvelope, envelope] at h
        rcases h with h | h
        · simp at h
          exact h.2.symm
        · simp at h
  · cases hs : Sscanf r.Path with
    | error e =>
      rw [getPost_scan_error marshalTime svc NewRecorder r e hs]
      exact envelope_reply_status StatusBadRequest _ m st
    | ok postId =>
      by_cases hm : ∃ x ∈ svc.postRepository.repository.toList, x.Id = postId
      · obtain ⟨post, _, hf⟩ := post_GetById_of_mem svc.postRepository postId hm
        rw [getPost_found marshalTime svc NewRecorder r postId post hs hf]
        intro h
        dsimp only at h
        rw [(json_reply StatusOK _).2.1] at h
        exact absurd h (post_body_no_envelope marshalTime post m st)
      · have hn : ∀ x ∈ svc.postRepository.repository.toList, x.Id ≠ postId :=
          fun x hx hid => hm ⟨x, hx, hid⟩
        rw [getPost_not_found marshalTime svc NewRecorder r postId hs hn]
        exact envelope_reply_status StatusNotFound _ m st
  · by_cases he : Values.Get r.Query "postId" = ""
    · rw [getComments_missing marshalTime svc NewRecorder r he]
      exact envelope_reply_status StatusBadRequest _ m st
    · cases hp : ParseUint (Values.Get r.Query "postId") with
      | error e =>
        rw [getComments_unparsed marshalTime svc NewRecorder r e he hp]
        exact envelope_reply_status StatusBadRequest _ m st
      | ok p =>
        rw [getComments_parsed marshalTime svc NewRecorder r p hp]
        intro h
        dsimp only at h
        rw [(json_reply StatusOK _).2.1] at h
        exact absurd h (comments_body_no_envelope marshalTime _ m st)
  · cases hdec : decodeComment r.Body with
    | none =>
      rw [addComment_decode_error decodeComment svc NewRecorder r hdec]
      exact envelope_reply_status StatusBadRequest _ m st
    | some comment =>
      cases hc : incomplete comment with
      | true =>
        rw [addComment_incomplete decodeComment svc NewRecorder r comment hdec hc]
        exact envelope_reply_status StatusBadRequest _ m st
      | false =>
        by_cases hm : ∃ x ∈ svc.commentRepository.repository.toList, x.Id = comment.Id
        · rw [addComment_duplicate decodeComment svc NewRecorder r comment hdec hc hm]
          exact envelope_reply_status StatusBadRequest _ m st
        · have hn : ∀ x ∈ svc.commentRepository.repository.toList, x.Id ≠ comment.Id :=
            fun x hx hid => hm ⟨x, hx, hid⟩
          rw [addComment_fresh decodeComment svc NewRecorder r comment hdec hc hn]
          exact envelope_reply_status StatusOK _ m st

/-- Witness for C21: the success envelope of each POST handler, the not-found envelope of
`GET /api/posts/34` and the missing-id envelope of `GET /api/comments`, all on the new
service. -/
theorem envelope_status_is_http_status_witness :
    (carriesEnvelope
        (handleAddPost sampleDecodePost NewRestApiService NewRecorder
          (postPost validPostBody)).2.Body "Post with id: 34 successfully added" 200
      ∧ (200 : Int) = (handleAddPost sampleDecodePost NewRestApiService NewRecorder
          (postPost validPostBody)).2.StatusCode)
    ∧ (carriesEnvelope
        (handleGetPostByPostId sampleMarshalTime NewRestApiService NewRecorder
          (getPost "/api/posts/34")).2.Body "Post with id: 34 does not exist" 404
      ∧ (404 : Int) = (handleGetPostByPostId sampleMarshalTime NewRestApiService NewRecorder
          (getPost "/api/posts/34")).2.StatusCode)
    ∧ (carriesEnvelope
        (handleGetCommentsByPostId sampleMarshalTime NewRestApiService NewRecorder
          (getComments [])).2.Body "Wrong id path variable: postId is missing" 400
      ∧ (400 : Int) = (handleGetCommentsByPostId sampleMarshalTime NewRestApiService NewRecorder
          (getComments [])).2.StatusCode)
    ∧ (carriesEnvelope
        (handleAddComment sampleDecode NewRestApiService NewRecorder
          (postComment validCommentBody)).2.Body "Comment with id: 123 successfully added" 200
      ∧ (200 : Int) = (handleAddComment sampleDecode NewRestApiService NewRecorder
          (postComment validCommentBody)).2.StatusCode) :=
  ⟨⟨Or.inl rfl,
      (envelope_status_is_http_status sampleDecodePost sampleDecode sampleMarshalTime
        NewRestApiService (postPost validPostBody) "Post with id: 34 successfully added"
        200).1 (Or.inl rfl)⟩,
    ⟨Or.inr rfl,
      (envelope_status_is_http_status sampleDecodePost sampleDecode sampleMarshalTime
        NewRestApiService (getPost "/api/posts/34") "Post with id: 34 does not exist"
        404).2.1 (Or.inr rfl)⟩,
    ⟨Or.inr rfl,
      (envelope_status_is_http_status sampleDecodePost sampleDecode sampleMarshalTime
        NewRestApiService (getComments []) "Wrong id path variable: postId is missing"
        400).2.2.1 (Or.inr rfl)⟩,
    ⟨Or.inr rfl,
      (envelope_status_is_http_status sampleDecodePost sampleDecode sampleMarshalTime
        NewRestApiService (postComment validCommentBody)
        "Comment with id: 123 successfully added" 200).2.2.2 (Or.inr rfl)⟩⟩

end Blog
